import Mathlib

/-!
# Smart Explorer Navigation (`mod.wh.cpp`): embedding and verified properties

The mod hooks `MessageBeep` and `TranslateAcceleratorW` inside the file
browser.  Everything it does goes through calls into the host (the Win32 and
COM object model), so the host is a parameter of the embedding: a record of
functions over an arbitrary host state `σ`.  The mod's own functions are
translated one to one as state-passing functions over a `World`, which holds
the host state, the global `settings` variable, the log written by `Wh_Log`,
the sequence of host calls made so far and a ledger of the references and
allocations the mod currently holds.
-/

namespace SmartNav

/-! ## Data model -/

/-- COM interface pointers and memory blocks are identified by a number. -/
abbrev Handle := Nat

abbrev Hwnd := Nat

abbrev Haccel := Nat

/-- One SHITEMID of an item identifier list. -/
abbrev ItemId := String

/-- The contents of an ITEMIDLIST: the sequence of its item identifiers.
The empty list is the desktop, the root of the shell namespace. -/
abbrev Pidl := List ItemId

/-- Win32 `BOOL` is an `int`. -/
abbrev BOOL := Int

def TRUE : BOOL := 1

def WM_KEYDOWN : Nat := 0x0100

def VK_BACK : Nat := 0x08

def VK_SHIFT : Nat := 0x10

def VK_CONTROL : Nat := 0x11

def VK_MENU : Nat := 0x12

/-- The `MSG` fields the hook reads (`message`, `wParam`) and `lParam`. -/
structure Msg where
  message : Nat
  wParam : Nat
  lParam : Nat
deriving DecidableEq

/-- The two special folders the mod asks for. -/
inductive Csidl where
  | DRIVES
  | DESKTOP
deriving DecidableEq

/-- The two ways the mod calls `IShellBrowser::BrowseObject`. -/
inductive BrowseArg where
  /-- The call `BrowseObject(nullptr, SBSP_NAVIGATEBACK)`. -/
  | navigateBack
  /-- The call `BrowseObject(pidl, SBSP_ABSOLUTE)`. -/
  | absolute (pidl : Pidl)
deriving DecidableEq

/-- The global `settings` struct. -/
structure Settings where
  upHotkey : String
  enableLogging : Bool
deriving DecidableEq

/-- A call from the mod into the host, as recorded in the world.  Reading the
keyboard state with `GetKeyState` touches no host object and is not recorded. -/
inductive HostCall where
  | GetProp (hwnd : Hwnd)
  | QueryInterface (punk : Handle)
  | BrowseObject (psb : Handle) (arg : BrowseArg)
  | QueryActiveShellView (psb : Handle)
  | GetItemObject (psv : Handle)
  | GetCurFolder (ppf2 : Handle)
  | SHGetSpecialFolderLocation (csidl : Csidl)
  | TranslateAcceleratorW_Original (hWnd : Hwnd) (hAccTable : Haccel) (msg : Msg)
  | MessageBeep_Original (uType : Nat)
  | Wh_GetStringSetting (name : String)
  | Wh_GetIntSetting (name : String)
deriving DecidableEq

/-- An entry of the resource ledger: a reference or memory block was obtained,
or given back (`Release`, `CoTaskMemFree`). -/
inductive ResEvent where
  | acquire (h : Nat)
  | release (h : Nat)
deriving DecidableEq

/-- The host the mod runs in.  A call that hands out an interface pointer
returns `true` exactly when the C++ test `SUCCEEDED(hr) && p` passes; a call
that hands out an identifier list returns its contents in that case;
`BrowseObject` returns `SUCCEEDED(hr)`.  `GetKeyState` returns the 16-bit
pattern of its `SHORT` result. -/
structure Host (σ : Type) where
  GetKeyState : σ → Nat → Nat
  GetProp : σ → Hwnd → Option Handle
  QueryInterface : Handle → σ → Bool × σ
  BrowseObject : Handle → BrowseArg → σ → Bool × σ
  QueryActiveShellView : Handle → σ → Bool × σ
  GetItemObject : Handle → σ → Bool × σ
  GetCurFolder : Handle → σ → Option Pidl × σ
  SHGetSpecialFolderLocation : Csidl → σ → Option Pidl × σ
  TranslateAcceleratorW_Original : Hwnd → Haccel → Msg → σ → BOOL × σ
  MessageBeep_Original : Nat → σ → BOOL × σ
  Wh_GetStringSetting : σ → String → String
  Wh_GetIntSetting : σ → String → Int

/-- Everything a run of the mod can read or change. -/
structure World (σ : Type) where
  host : σ
  settings : Settings
  log : List String
  calls : List HostCall
  live : List Nat
  next : Nat
  res : List ResEvent

variable {σ : Type}

/-! ## Primitive steps -/

/-- A call into the host that may change the host state. -/
def hostCall {α : Type} (c : HostCall) (f : σ → α × σ) (w : World σ) : α × World σ :=
  ((f w.host).1, { w with host := (f w.host).2, calls := w.calls ++ [c] })

/-- A call into the host that only reads. -/
def hostRead {α : Type} (c : HostCall) (f : σ → α) (w : World σ) : α × World σ :=
  (f w.host, { w with calls := w.calls ++ [c] })

/-- The mod obtains a reference or memory block; the ledger gives it the next
unused number. -/
def acquire (w : World σ) : Nat × World σ :=
  (w.next, { w with live := w.next :: w.live, next := w.next + 1,
                    res := w.res ++ [ResEvent.acquire w.next] })

/-- The functions `Release()` and `CoTaskMemFree`. -/
def release (h : Nat) (w : World σ) : World σ :=
  { w with live := w.live.erase h, res := w.res ++ [ResEvent.release h] }

def Wh_Log (line : String) (w : World σ) : World σ :=
  { w with log := w.log ++ [line] }

/-- The statement `if (settings.enableLogging) Wh_Log(line);`. -/
def logIf (line : String) (w : World σ) : World σ :=
  if w.settings.enableLogging then Wh_Log line w else w

/-- Modelled from the spec: the shell function `ILRemoveLastID`, which is not
part of the repository.  It removes the last component of the identifier list
in place and reports failure when no component can be removed.  The result is
the new contents, or `none` for `FALSE`. -/
def ILRemoveLastID (pidl : Pidl) : Option Pidl :=
  if pidl = [] then none else some pidl.dropLast

/-- The C function `wcscmp`; the mod only tests the result against zero. -/
def wcscmp (a b : String) : Int :=
  if a = b then 0 else if a < b then -1 else 1

/-! ## The mod -/

def MessageBeep_Hook (uType : Nat) (w : World σ) : BOOL × World σ :=
  (TRUE, logIf ("MessageBeep suppressed (type: " ++ toString uType ++ ")") w)

def GetShellBrowserFromHwnd (H : Host σ) (hwnd : Hwnd) (w : World σ) :
    Option Handle × World σ :=
  let p := hostRead (.GetProp hwnd) (fun s => H.GetProp s hwnd) w
  match p.1 with
  | some punk =>
    let q := hostCall (.QueryInterface punk) (H.QueryInterface punk) p.2
    if q.1 then
      let a := acquire q.2
      (some a.1, a.2)
    else (none, q.2)
  | none => (none, p.2)

def NavigateToParent (H : Host σ) (psb : Option Handle) (w : World σ) : Bool × World σ :=
  match psb with
  | none => (false, w)
  | some sb =>
    let v := hostCall (.QueryActiveShellView sb) (H.QueryActiveShellView sb) w
    if v.1 then
      let psv := acquire v.2
      let f := hostCall (.GetItemObject psv.1) (H.GetItemObject psv.1) psv.2
      if f.1 then
        let ppf2 := acquire f.2
        let c := hostCall (.GetCurFolder ppf2.1) (H.GetCurFolder ppf2.1) ppf2.2
        match c.1 with
        | some ids =>
          let pidl := acquire c.2
          -- `ILClone(pidl)`: a second block with the same contents
          let pidlParent := acquire pidl.2
          match ILRemoveLastID ids with
          | some parent =>
            let hr := hostCall (.BrowseObject sb (.absolute parent))
              (H.BrowseObject sb (.absolute parent)) pidlParent.2
            (hr.1, release psv.1 (release ppf2.1 (release pidl.1 (release pidlParent.1 hr.2))))
          | none =>
            (false, release psv.1 (release ppf2.1 (release pidl.1
              (release pidlParent.1 pidlParent.2))))
        | none => (false, release psv.1 (release ppf2.1 c.2))
      else (false, release psv.1 f.2)
    else (false, v.2)

def NavigateToThisPC (H : Host σ) (psb : Option Handle) (w : World σ) : Bool × World σ :=
  match psb with
  | none => (false, w)
  | some sb =>
    let l := hostCall (.SHGetSpecialFolderLocation .DRIVES)
      (H.SHGetSpecialFolderLocation .DRIVES) w
    match l.1 with
    | some ids =>
      let pidl := acquire l.2
      let hr := hostCall (.BrowseObject sb (.absolute ids))
        (H.BrowseObject sb (.absolute ids)) pidl.2
      (hr.1, release pidl.1 hr.2)
    | none => (false, l.2)

def NavigateToDesktop (H : Host σ) (psb : Option Handle) (w : World σ) : Bool × World σ :=
  match psb with
  | none => (false, w)
  | some sb =>
    let l := hostCall (.SHGetSpecialFolderLocation .DESKTOP)
      (H.SHGetSpecialFolderLocation .DESKTOP) w
    match l.1 with
    | some ids =>
      let pidl := acquire l.2
      let hr := hostCall (.BrowseObject sb (.absolute ids))
        (H.BrowseObject sb (.absolute ids)) pidl.2
      (hr.1, release pidl.1 hr.2)
    | none => (false, l.2)

def SmartNavigateBack (H : Host σ) (psb : Option Handle) (w : World σ) : Bool × World σ :=
  match psb with
  | none => (false, w)
  | some sb =>
    let hr := hostCall (.BrowseObject sb .navigateBack) (H.BrowseObject sb .navigateBack) w
    if hr.1 then (true, logIf "Normal back succeeded" hr.2)
    else
      let p := NavigateToParent H psb (logIf "Back failed, trying parent" hr.2)
      if p.1 then (true, p.2)
      else
        let t := NavigateToThisPC H psb (logIf "Parent failed, trying This PC" p.2)
        if t.1 then (true, t.2)
        else NavigateToDesktop H psb (logIf "This PC failed, trying Desktop" t.2)

def SmartNavigateUp (H : Host σ) (psb : Option Handle) (w : World σ) : Bool × World σ :=
  match psb with
  | none => (false, w)
  | some _ =>
    let p := NavigateToParent H psb w
    if p.1 then (true, logIf "Navigate up succeeded" p.2)
    else SmartNavigateBack H psb (logIf "Navigate up failed, trying back" p.2)

/-- The test `(GetKeyState(vk) & 0x8000) != 0`. -/
def keyDown (state : Nat) : Bool :=
  (state &&& 0x8000) != 0

/-- The call `TranslateAcceleratorW_Original(hWnd, hAccTable, lpMsg)`. -/
def callOriginal (H : Host σ) (hWnd : Hwnd) (hAccTable : Haccel) (lpMsg : Msg)
    (w : World σ) : BOOL × World σ :=
  hostCall (.TranslateAcceleratorW_Original hWnd hAccTable lpMsg)
    (H.TranslateAcceleratorW_Original hWnd hAccTable lpMsg) w

def TranslateAcceleratorW_Hook (H : Host σ) (hWnd : Hwnd) (hAccTable : Haccel) (lpMsg : Msg)
    (w : World σ) : BOOL × World σ :=
  if lpMsg.message = WM_KEYDOWN then
    let isShift := keyDown (H.GetKeyState w.host VK_SHIFT)
    let isAlt := keyDown (H.GetKeyState w.host VK_MENU)
    let isCtrl := keyDown (H.GetKeyState w.host VK_CONTROL)
    if lpMsg.wParam = VK_BACK ∧ isCtrl = false then
      let g := GetShellBrowserFromHwnd H hWnd w
      match g.1 with
      | some psb =>
        let d :=
          if (wcscmp g.2.settings.upHotkey "shift" = 0 ∧ isShift = true) ∨
              (wcscmp g.2.settings.upHotkey "alt" = 0 ∧ isAlt = true) then
            SmartNavigateUp H (some psb) (logIf "Up hotkey detected" g.2)
          else if isShift = false ∧ isAlt = false then
            SmartNavigateBack H (some psb) (logIf "Backspace detected" g.2)
          else (false, g.2)
        if d.1 then (TRUE, release psb d.2)
        else callOriginal H hWnd hAccTable lpMsg (release psb d.2)
      | none => callOriginal H hWnd hAccTable lpMsg g.2
    else callOriginal H hWnd hAccTable lpMsg w
  else callOriginal H hWnd hAccTable lpMsg w

def LoadSettings (H : Host σ) (w : World σ) : World σ :=
  let s := hostRead (.Wh_GetStringSetting "upHotkey")
    (fun h => H.Wh_GetStringSetting h "upHotkey") w
  let w1 : World σ := { s.2 with settings := { s.2.settings with upHotkey := s.1 } }
  let i := hostRead (.Wh_GetIntSetting "enableLogging")
    (fun h => H.Wh_GetIntSetting h "enableLogging") w1
  { i.2 with settings := { i.2.settings with enableLogging := decide (i.1 ≠ 0) } }

def Wh_ModSettingsChanged (H : Host σ) (w : World σ) : World σ :=
  LoadSettings H (Wh_Log "Smart Explorer Navigation - Settings Changed" w)

/-! ## Observations on a run -/

/-- The four navigation targets of the fallback chain. -/
inductive NavigationTarget where
  | Back
  | Parent
  | RootCollection
  | DesktopCollection
deriving DecidableEq

/-- The target whose attempt a host call opens.  `SmartNavigateBack` opens the
Back attempt with `BrowseObject(nullptr, SBSP_NAVIGATEBACK)`, `NavigateToParent`
opens with `QueryActiveShellView`, `NavigateToThisPC` and `NavigateToDesktop`
open with `SHGetSpecialFolderLocation` for their folder. -/
def attemptOf : HostCall → Option NavigationTarget
  | .BrowseObject _ .navigateBack => some .Back
  | .QueryActiveShellView _ => some .Parent
  | .SHGetSpecialFolderLocation .DRIVES => some .RootCollection
  | .SHGetSpecialFolderLocation .DESKTOP => some .DesktopCollection
  | _ => none

/-- The sequence of target attempts in a sequence of host calls. -/
def attempts (cs : List HostCall) : List NavigationTarget :=
  cs.filterMap attemptOf

/-- The host calls made between world `w` and a later world `w2`. -/
def newCalls (w w2 : World σ) : List HostCall :=
  w2.calls.drop w.calls.length

/-- The ledger entries written between world `w` and a later world `w2`. -/
def newRes (w w2 : World σ) : List ResEvent :=
  w2.res.drop w.res.length

/-- The function `target.attempt(session)` of the data model, as the code
implements it for each target. -/
def attempt (H : Host σ) (t : NavigationTarget) (sb : Handle) (w : World σ) : Bool × World σ :=
  match t with
  | .Back => hostCall (.BrowseObject sb .navigateBack) (H.BrowseObject sb .navigateBack) w
  | .Parent => NavigateToParent H (some sb) w
  | .RootCollection => NavigateToThisPC H (some sb) w
  | .DesktopCollection => NavigateToDesktop H (some sb) w

/-- The Back-chain of the data model. -/
def backChain : List NavigationTarget :=
  [.Back, .Parent, .RootCollection, .DesktopCollection]

/-- Calls that issue a navigation action. -/
def isNavigation : HostCall → Bool
  | .BrowseObject _ _ => true
  | _ => false

/-- Calls that resolve the session of a window. -/
def isResolve : HostCall → Bool
  | .GetProp _ => true
  | .QueryInterface _ => true
  | _ => false

/-- Calls of the original `TranslateAcceleratorW`. -/
def isOriginal : HostCall → Bool
  | .TranslateAcceleratorW_Original _ _ _ => true
  | _ => false

/-- Calls the navigation engine makes: browsing, and the queries of the three
resolution steps. -/
def isEngine : HostCall → Bool
  | .BrowseObject _ _ => true
  | .QueryActiveShellView _ => true
  | .GetItemObject _ => true
  | .GetCurFolder _ => true
  | .SHGetSpecialFolderLocation _ => true
  | _ => false

/-- Resource balance between a world `w` and a later world `w2`: the mod holds
in `w2` exactly what it held in `w`, and every resource obtained in between
(the ledger numbers from `w.next` up to `w2.next`) has exactly one acquire entry
and exactly one release entry among the new ledger entries, while no other
number is acquired or released. -/
def Balanced (w w2 : World σ) : Prop :=
  w2.live = w.live ∧ w.next ≤ w2.next ∧
  w2.res = w.res ++ newRes w w2 ∧
  ∀ h : Nat,
    (newRes w w2).count (.acquire h) = (if w.next ≤ h ∧ h < w2.next then 1 else 0) ∧
    (newRes w w2).count (.release h) = (if w.next ≤ h ∧ h < w2.next then 1 else 0)

/-- The up-hotkey test of the hook: the configured modifier is held. -/
def upHotkeyHeld (s : Settings) (isShift isAlt : Bool) : Prop :=
  (wcscmp s.upHotkey "shift" = 0 ∧ isShift = true) ∨
    (wcscmp s.upHotkey "alt" = 0 ∧ isAlt = true)

/-- What the hook does with a resolved session `psb` once it has chosen an
engine operation: write the log line, run the operation on the session, release
the session reference, then consume the event when the operation returned
true and call the original entry point otherwise. -/
def dispatchTo (H : Host σ) (engine : Host σ → Option Handle → World σ → Bool × World σ)
    (line : String) (psb : Handle) (hWnd : Hwnd) (hAccTable : Haccel) (lpMsg : Msg)
    (w : World σ) : BOOL × World σ :=
  if (engine H (some psb) (logIf line w)).1 then
    (TRUE, release psb (engine H (some psb) (logIf line w)).2)
  else callOriginal H hWnd hAccTable lpMsg (release psb (engine H (some psb) (logIf line w)).2)

/-- The Back attempt of a call `SmartNavigateBack(sb)` made in world `w`. -/
def tryBack (H : Host σ) (sb : Handle) (w : World σ) : Bool × World σ :=
  attempt H .Back sb w

/-- The Parent attempt as it runs in the world the failed Back attempt left. -/
def tryParent (H : Host σ) (sb : Handle) (w : World σ) : Bool × World σ :=
  attempt H .Parent sb (logIf "Back failed, trying parent" (tryBack H sb w).2)

/-- The RootCollection attempt as it runs after the failed Parent attempt. -/
def tryRoot (H : Host σ) (sb : Handle) (w : World σ) : Bool × World σ :=
  attempt H .RootCollection sb (logIf "Parent failed, trying This PC" (tryParent H sb w).2)

/-- The DesktopCollection attempt as it runs after the failed RootCollection
attempt. -/
def tryDesktop (H : Host σ) (sb : Handle) (w : World σ) : Bool × World σ :=
  attempt H .DesktopCollection sb (logIf "This PC failed, trying Desktop" (tryRoot H sb w).2)

/-- The position in the Back-chain of the first target that succeeds, or 4 when
none does. -/
def firstSuccess (H : Host σ) (sb : Handle) (w : World σ) : Nat :=
  if (tryBack H sb w).1 then 1
  else if (tryParent H sb w).1 then 2
  else if (tryRoot H sb w).1 then 3
  else 4

/-- The world in which `SmartNavigateUp` hands over to `SmartNavigateBack`
after its own Parent attempt failed. -/
def upHandover (H : Host σ) (sb : Handle) (w : World σ) : World σ :=
  logIf "Navigate up failed, trying back" (NavigateToParent H (some sb) w).2

/-- The session's current folder identity as `NavigateToParent` obtains it
from the host in world `w`: the active view of the session, the folder object
of that view, and the current folder of that object, together with the host
state after the queries.  It is `none` when one of the three cannot be
obtained. -/
def currentIdentity (H : Host σ) (sb : Handle) (w : World σ) : Option (Pidl × σ) :=
  if (H.QueryActiveShellView sb w.host).1 then
    if (H.GetItemObject w.next (H.QueryActiveShellView sb w.host).2).1 then
      match (H.GetCurFolder (w.next + 1)
          (H.GetItemObject w.next (H.QueryActiveShellView sb w.host).2).2).1 with
      | some ids => some (ids, (H.GetCurFolder (w.next + 1)
          (H.GetItemObject w.next (H.QueryActiveShellView sb w.host).2).2).2)
      | none => none
    else none
  else none

/-- The navigation actions among the host calls made between `w` and `w2`. -/
def navigations (w w2 : World σ) : List HostCall :=
  (newCalls w w2).filter isNavigation

/-- The event was consumed exactly when the engine operation returned true:
with `d` the outcome of the engine operation `engine` run on session `psb` in
world `g` (after the log line `line`), the hook result `r` is `TRUE` with no call
of the original entry point when `d` is true, and otherwise is the result of
one call of the original entry point with the same arguments. -/
def ConsumesIff (H : Host σ) (engine : Host σ → Option Handle → World σ → Bool × World σ)
    (line : String) (psb : Handle) (hWnd : Hwnd) (hAccTable : Haccel) (lpMsg : Msg)
    (w g : World σ) (r : BOOL × World σ) : Prop :=
  ((engine H (some psb) (logIf line g)).1 = true →
    r = (TRUE, release psb (engine H (some psb) (logIf line g)).2) ∧
    (newCalls w r.2).filter isOriginal = []) ∧
  ((engine H (some psb) (logIf line g)).1 = false →
    r = callOriginal H hWnd hAccTable lpMsg (release psb (engine H (some psb) (logIf line g)).2) ∧
    (newCalls w r.2).filter isOriginal =
      [.TranslateAcceleratorW_Original hWnd hAccTable lpMsg] ∧
    r.1 = (H.TranslateAcceleratorW_Original hWnd hAccTable lpMsg
      (engine H (some psb) (logIf line g)).2.host).1)

/-- The shift key is down in the host state of `w`. -/
def shiftHeld (H : Host σ) (w : World σ) : Bool :=
  keyDown (H.GetKeyState w.host VK_SHIFT)

/-- The alt key is down in the host state of `w`. -/
def altHeld (H : Host σ) (w : World σ) : Bool :=
  keyDown (H.GetKeyState w.host VK_MENU)

/-- The control key is down in the host state of `w`. -/
def ctrlHeld (H : Host σ) (w : World σ) : Bool :=
  keyDown (H.GetKeyState w.host VK_CONTROL)

/-- The hook result `r` is that of running `SmartNavigateUp` on the resolved
session `psb`. -/
def RunsUp (H : Host σ) (psb : Handle) (hWnd : Hwnd) (hAccTable : Haccel) (lpMsg : Msg)
    (w : World σ) (r : BOOL × World σ) : Prop :=
  r = dispatchTo H SmartNavigateUp "Up hotkey detected" psb hWnd hAccTable lpMsg
    (GetShellBrowserFromHwnd H hWnd w).2

/-- The hook result `r` is that of running `SmartNavigateBack` on the resolved
session `psb`. -/
def RunsBack (H : Host σ) (psb : Handle) (hWnd : Hwnd) (hAccTable : Haccel) (lpMsg : Msg)
    (w : World σ) (r : BOOL × World σ) : Prop :=
  r = dispatchTo H SmartNavigateBack "Backspace detected" psb hWnd hAccTable lpMsg
    (GetShellBrowserFromHwnd H hWnd w).2

/-- The hook result `r` is that of the original entry point, called after the
resolved session `psb` was released, and no call of the navigation engine was
made. -/
def FallsThrough (H : Host σ) (psb : Handle) (hWnd : Hwnd) (hAccTable : Haccel) (lpMsg : Msg)
    (w : World σ) (r : BOOL × World σ) : Prop :=
  r = callOriginal H hWnd hAccTable lpMsg (release psb (GetShellBrowserFromHwnd H hWnd w).2) ∧
  (newCalls w r.2).filter isEngine = []

/-- The world `w` with the logging setting set to `b`. -/
def withLogging (b : Bool) (w : World σ) : World σ :=
  { w with settings := { w.settings with enableLogging := b } }

/-! ## A small concrete host

A shell with a current location and a back history, used to run the mod on
concrete inputs. -/

/-- State of the example shell. -/
structure Shell where
  location : Pidl
  history : List Pidl

/-- The fixed behaviour of the example shell. -/
structure Script where
  keys : Nat → Nat
  punk : Option Handle
  browser : Bool
  view : Bool
  folder : Bool
  reachable : Pidl → Bool
  drives : Option Pidl
  desktop : Option Pidl
  original : BOOL
  upHotkey : String
  enableLogging : Int

def scriptHost (S : Script) : Host Shell where
  GetKeyState := fun _ vk => S.keys vk
  GetProp := fun _ _ => S.punk
  QueryInterface := fun _ s => (S.browser, s)
  BrowseObject := fun _ arg s =>
    match arg with
    | .navigateBack =>
      match s.history with
      | [] => (false, s)
      | p :: rest => (true, { location := p, history := rest })
    | .absolute p =>
      if S.reachable p then (true, { location := p, history := s.location :: s.history })
      else (false, s)
  QueryActiveShellView := fun _ s => (S.view, s)
  GetItemObject := fun _ s => (S.folder, s)
  GetCurFolder := fun _ s => (some s.location, s)
  SHGetSpecialFolderLocation := fun c s =>
    match c with
    | .DRIVES => (S.drives, s)
    | .DESKTOP => (S.desktop, s)
  TranslateAcceleratorW_Original := fun _ _ _ s => (S.original, s)
  MessageBeep_Original := fun _ s => (1, s)
  Wh_GetStringSetting := fun _ _ => S.upHotkey
  Wh_GetIntSetting := fun _ _ => S.enableLogging

/-- A world in which nothing has happened yet. -/
def World.start (s : Shell) (st : Settings) : World Shell :=
  { host := s, settings := st, log := [], calls := [], live := [], next := 0, res := [] }

/-- No modifier key is down. -/
def noKeys : Nat → Nat := fun _ => 0

/-- Only the key `vk` is down. -/
def onlyKey (vk : Nat) : Nat → Nat := fun k => if k = vk then 0x8000 else 0

/-- A shell in which every host object is available and every location except
those in `blocked` can be browsed to. -/
def openShell (blocked : List Pidl) (keys : Nat → Nat) : Script :=
  { keys := keys, punk := some 7, browser := true, view := true, folder := true,
    reachable := fun p => !(blocked.contains p),
    drives := some ["This PC"], desktop := some [],
    original := 0, upHotkey := "shift", enableLogging := 0 }

/-- The location `C:\Users\X\Docs`. -/
def docs : Pidl := ["This PC", "C:", "Users", "X", "Docs"]

/-- A shell at the desktop root with an empty history, where the drives
collection cannot be browsed to. -/
def rootHost : Host Shell :=
  scriptHost (openShell [["This PC"]] noKeys)

/-- The world of `rootHost` before any call. -/
def rootWorld : World Shell :=
  World.start { location := [], history := [] } { upHotkey := "shift", enableLogging := false }

/-- The Backspace key-down message. -/
def backspaceDown : Msg :=
  { message := WM_KEYDOWN, wParam := VK_BACK, lParam := 0 }

/-- The world of a shell at `C:\Users\X\Docs` with an empty history, with the
up-modifier `up`. -/
def docsWorld (up : String) : World Shell :=
  World.start { location := docs, history := [] } { upHotkey := up, enableLogging := false }

/-- Shift and alt are both down, control is not. -/
def shiftAndAlt : Nat → Nat := fun k => if k = VK_SHIFT ∨ k = VK_MENU then 0x8000 else 0

/-- The example shell with its settings store holding the up-modifier `up`. -/
def storeShell (up : String) (keys : Nat → Nat) : Script :=
  { openShell [] keys with upHotkey := up }

/-! ## Frame lemmas -/

/-- Worlds `w` and `w2` are related by a run that made the calls `new`, kept
the settings, and is resource balanced. -/
structure Ext (w w2 : World σ) (new : List HostCall) : Prop where
  calls : w2.calls = w.calls ++ new
  settings : w2.settings = w.settings
  live : w2.live = w.live
  next : w.next ≤ w2.next
  res : ∃ ev, w2.res = w.res ++ ev ∧ ∀ h : Nat,
    ev.count (.acquire h) = (if w.next ≤ h ∧ h < w2.next then 1 else 0) ∧
    ev.count (.release h) = (if w.next ≤ h ∧ h < w2.next then 1 else 0)

theorem Ext.refl (w : World σ) : Ext w w [] := by
  refine ⟨by simp, rfl, rfl, le_refl _, [], by simp, ?_⟩
  intro h
  have : ¬ (w.next ≤ h ∧ h < w.next) := by omega
  simp [this]

theorem Ext.trans {w w1 w2 : World σ} {n1 n2 : List HostCall}
    (h1 : Ext w w1 n1) (h2 : Ext w1 w2 n2) : Ext w w2 (n1 ++ n2) := by
  obtain ⟨c1, s1, l1, x1, e1, r1, k1⟩ := h1
  obtain ⟨c2, s2, l2, x2, e2, r2, k2⟩ := h2
  refine ⟨by rw [c2, c1, List.append_assoc], by rw [s2, s1], by rw [l2, l1],
    le_trans x1 x2, e1 ++ e2, by rw [r2, r1, List.append_assoc], ?_⟩
  intro h
  have a1 := k1 h
  have a2 := k2 h
  simp only [List.count_append, a1.1, a1.2, a2.1, a2.2]
  constructor <;> split_ifs <;> omega

theorem Ext.hostCall {α : Type} (c : HostCall) (f : σ → α × σ) (w : World σ) :
    Ext w (hostCall c f w).2 [c] := by
  refine ⟨rfl, rfl, rfl, le_refl _, [], by simp [SmartNav.hostCall], ?_⟩
  intro h
  have : ¬ (w.next ≤ h ∧ h < w.next) := by omega
  simp [SmartNav.hostCall, this]

theorem Ext.hostRead {α : Type} (c : HostCall) (f : σ → α) (w : World σ) :
    Ext w (hostRead c f w).2 [c] := by
  refine ⟨rfl, rfl, rfl, le_refl _, [], by simp [SmartNav.hostRead], ?_⟩
  intro h
  have : ¬ (w.next ≤ h ∧ h < w.next) := by omega
  simp [SmartNav.hostRead, this]

theorem Ext.logIf (line : String) (w : World σ) : Ext w (logIf line w) [] := by
  unfold SmartNav.logIf Wh_Log
  split
  · refine ⟨by simp, rfl, rfl, le_refl _, [], by simp, ?_⟩
    intro h
    have : ¬ (w.next ≤ h ∧ h < w.next) := by omega
    simp [this]
  · exact Ext.refl w

/-- A balanced run enclosed between obtaining a resource and releasing it. -/
theorem Ext.nest {w w2 : World σ} {new : List HostCall}
    (h : Ext (acquire w).2 w2 new) : Ext w (release (acquire w).1 w2) new := by
  obtain ⟨c, s, l, x, e, r, k⟩ := h
  simp only [acquire] at c s l x r k
  refine ⟨by simpa [release] using c, by simpa [release] using s, ?_, ?_, ?_⟩
  · simp [release, acquire, l]
  · simp only [release]; omega
  · refine ⟨[ResEvent.acquire w.next] ++ e ++ [ResEvent.release w.next], ?_, ?_⟩
    · simp [release, acquire, r]
    · intro h
      have a := k h
      simp only [List.count_append, a.1, a.2, release, acquire, List.count_cons,
        List.count_nil, beq_iff_eq, ResEvent.acquire.injEq, ResEvent.release.injEq]
      simp only [reduceCtorEq, if_false]
      constructor <;> split_ifs <;> omega


theorem Ext.newCalls_eq {w w2 : World σ} {new : List HostCall} (h : Ext w w2 new) :
    newCalls w w2 = new := by
  simp [newCalls, h.calls]

theorem Ext.calls_eq {w w2 : World σ} {new : List HostCall} (h : Ext w w2 new) :
    w2.calls = w.calls ++ newCalls w w2 := by
  rw [h.newCalls_eq]; exact h.calls

theorem Ext.balanced {w w2 : World σ} {new : List HostCall} (h : Ext w w2 new) :
    Balanced w w2 := by
  obtain ⟨_, _, l, x, e, r, k⟩ := h
  have hr : newRes w w2 = e := by simp [newRes, r]
  exact ⟨l, x, by rw [hr]; exact r, by rw [hr]; exact k⟩

theorem wcscmp_eq_zero (a b : String) : wcscmp a b = 0 ↔ a = b := by
  unfold wcscmp
  split_ifs <;> simp_all

theorem attempts_append (a b : List HostCall) : attempts (a ++ b) = attempts a ++ attempts b := by
  simp [attempts]

theorem isEngine_not_original {c : HostCall} (h : isEngine c = true) : isOriginal c = false := by
  cases c <;> simp_all [isEngine, isOriginal]

theorem isEngine_not_resolve {c : HostCall} (h : isEngine c = true) : isResolve c = false := by
  cases c <;> simp_all [isEngine, isResolve]

/-! ## The navigation steps -/

theorem NavigateToParent_ext (H : Host σ) (sb : Handle) (w : World σ) :
    ∃ new, Ext w (NavigateToParent H (some sb) w).2 new ∧ attempts new = [.Parent] ∧
      ∀ c ∈ new, isEngine c = true := by
  unfold NavigateToParent
  simp only
  split_ifs with hv hf
  · split
    · split
      · exact ⟨_, (Ext.hostCall _ _ w).trans (Ext.nest ((Ext.hostCall _ _ _).trans
          (Ext.nest ((Ext.hostCall _ _ _).trans (Ext.nest (Ext.nest (Ext.hostCall _ _ _))))))),
          by simp [attempts, attemptOf], by simp [isEngine]⟩
      · exact ⟨_, (Ext.hostCall _ _ w).trans (Ext.nest ((Ext.hostCall _ _ _).trans
          (Ext.nest ((Ext.hostCall _ _ _).trans (Ext.nest (Ext.nest (Ext.refl _))))))),
          by simp [attempts, attemptOf], by simp [isEngine]⟩
    · exact ⟨_, (Ext.hostCall _ _ w).trans (Ext.nest ((Ext.hostCall _ _ _).trans
        (Ext.nest (Ext.hostCall _ _ _)))), by simp [attempts, attemptOf], by simp [isEngine]⟩
  · exact ⟨_, (Ext.hostCall _ _ w).trans (Ext.nest (Ext.hostCall _ _ _)),
      by simp [attempts, attemptOf], by simp [isEngine]⟩
  · exact ⟨_, Ext.hostCall _ _ w, by simp [attempts, attemptOf], by simp [isEngine]⟩

theorem NavigateToThisPC_ext (H : Host σ) (sb : Handle) (w : World σ) :
    ∃ new, Ext w (NavigateToThisPC H (some sb) w).2 new ∧ attempts new = [.RootCollection] ∧
      ∀ c ∈ new, isEngine c = true := by
  unfold NavigateToThisPC
  simp only
  split
  · exact ⟨_, (Ext.hostCall _ _ w).trans (Ext.nest (Ext.hostCall _ _ _)),
      by simp [attempts, attemptOf], by simp [isEngine]⟩
  · exact ⟨_, Ext.hostCall _ _ w, by simp [attempts, attemptOf], by simp [isEngine]⟩

theorem NavigateToDesktop_ext (H : Host σ) (sb : Handle) (w : World σ) :
    ∃ new, Ext w (NavigateToDesktop H (some sb) w).2 new ∧ attempts new = [.DesktopCollection] ∧
      ∀ c ∈ new, isEngine c = true := by
  unfold NavigateToDesktop
  simp only
  split
  · exact ⟨_, (Ext.hostCall _ _ w).trans (Ext.nest (Ext.hostCall _ _ _)),
      by simp [attempts, attemptOf], by simp [isEngine]⟩
  · exact ⟨_, Ext.hostCall _ _ w, by simp [attempts, attemptOf], by simp [isEngine]⟩

theorem attempt_ext (H : Host σ) (t : NavigationTarget) (sb : Handle) (w : World σ) :
    ∃ new, Ext w (attempt H t sb w).2 new ∧ attempts new = [t] ∧
      ∀ c ∈ new, isEngine c = true := by
  cases t
  · exact ⟨_, Ext.hostCall _ _ w, by simp [attempts, attemptOf], by simp [isEngine]⟩
  · exact NavigateToParent_ext H sb w
  · exact NavigateToThisPC_ext H sb w
  · exact NavigateToDesktop_ext H sb w

/-! ## The fallback chains -/

theorem SmartNavigateBack_unfold (H : Host σ) (sb : Handle) (w : World σ) :
    SmartNavigateBack H (some sb) w =
      if (tryBack H sb w).1 then (true, logIf "Normal back succeeded" (tryBack H sb w).2)
      else if (tryParent H sb w).1 then (true, (tryParent H sb w).2)
      else if (tryRoot H sb w).1 then (true, (tryRoot H sb w).2)
      else tryDesktop H sb w := by
  rfl

theorem SmartNavigateBack_ext (H : Host σ) (sb : Handle) (w : World σ) :
    ∃ new, Ext w (SmartNavigateBack H (some sb) w).2 new ∧
      attempts new = backChain.take (firstSuccess H sb w) ∧
      ∀ c ∈ new, isEngine c = true := by
  obtain ⟨n1, e1, a1, g1⟩ := attempt_ext H .Back sb w
  obtain ⟨n2, e2, a2, g2⟩ := attempt_ext H .Parent sb
    (logIf "Back failed, trying parent" (tryBack H sb w).2)
  obtain ⟨n3, e3, a3, g3⟩ := attempt_ext H .RootCollection sb
    (logIf "Parent failed, trying This PC" (tryParent H sb w).2)
  obtain ⟨n4, e4, a4, g4⟩ := attempt_ext H .DesktopCollection sb
    (logIf "This PC failed, trying Desktop" (tryRoot H sb w).2)
  have x1 : Ext w (tryBack H sb w).2 n1 := e1
  have x2 : Ext w (tryParent H sb w).2 (n1 ++ ([] ++ n2)) :=
    x1.trans ((Ext.logIf _ _).trans e2)
  have x3 : Ext w (tryRoot H sb w).2 ((n1 ++ ([] ++ n2)) ++ ([] ++ n3)) :=
    x2.trans ((Ext.logIf _ _).trans e3)
  have x4 : Ext w (tryDesktop H sb w).2 (((n1 ++ ([] ++ n2)) ++ ([] ++ n3)) ++ ([] ++ n4)) :=
    x3.trans ((Ext.logIf _ _).trans e4)
  rw [SmartNavigateBack_unfold]
  unfold firstSuccess
  by_cases h1 : (tryBack H sb w).1 = true
  · simp only [h1, if_true]
    refine ⟨n1 ++ [], x1.trans (Ext.logIf _ _), by simp [a1, backChain], ?_⟩
    simpa using g1
  · by_cases h2 : (tryParent H sb w).1 = true
    · simp only [h1, h2, if_true, if_false]
      refine ⟨_, x2, by simp [attempts_append, a1, a2, backChain], ?_⟩
      intro c hc
      simp only [List.mem_append, List.not_mem_nil, false_or] at hc
      rcases hc with hc | hc
      · exact g1 c hc
      · exact g2 c hc
    · by_cases h3 : (tryRoot H sb w).1 = true
      · simp only [h1, h2, h3, if_true, if_false]
        refine ⟨_, x3, by simp [attempts_append, a1, a2, a3, backChain], ?_⟩
        intro c hc
        simp only [List.mem_append, List.not_mem_nil, false_or] at hc
        rcases hc with (hc | hc) | hc
        · exact g1 c hc
        · exact g2 c hc
        · exact g3 c hc
      · simp only [h1, h2, h3, if_false]
        refine ⟨_, x4, by simp [attempts_append, a1, a2, a3, a4, backChain], ?_⟩
        intro c hc
        simp only [List.mem_append, List.not_mem_nil, false_or] at hc
        rcases hc with ((hc | hc) | hc) | hc
        · exact g1 c hc
        · exact g2 c hc
        · exact g3 c hc
        · exact g4 c hc

theorem SmartNavigateBack_result (H : Host σ) (sb : Handle) (w : World σ) :
    (SmartNavigateBack H (some sb) w).1 =
      ((tryBack H sb w).1 || (tryParent H sb w).1 || (tryRoot H sb w).1 ||
        (tryDesktop H sb w).1) := by
  rw [SmartNavigateBack_unfold]
  by_cases h1 : (tryBack H sb w).1 = true
  · simp [h1]
  · by_cases h2 : (tryParent H sb w).1 = true
    · simp [h1, h2]
    · by_cases h3 : (tryRoot H sb w).1 = true
      · simp [h1, h2, h3]
      · simp [h1, h2, h3]

theorem SmartNavigateUp_unfold (H : Host σ) (sb : Handle) (w : World σ) :
    SmartNavigateUp H (some sb) w =
      if (NavigateToParent H (some sb) w).1 then
        (true, logIf "Navigate up succeeded" (NavigateToParent H (some sb) w).2)
      else SmartNavigateBack H (some sb) (upHandover H sb w) := by
  rfl

theorem SmartNavigateUp_ext (H : Host σ) (sb : Handle) (w : World σ) :
    ∃ new, Ext w (SmartNavigateUp H (some sb) w).2 new ∧
      attempts new = (NavigationTarget.Parent :: backChain).take
        (if (NavigateToParent H (some sb) w).1 then 1
         else 1 + firstSuccess H sb (upHandover H sb w)) ∧
      ∀ c ∈ new, isEngine c = true := by
  obtain ⟨n1, e1, a1, g1⟩ := NavigateToParent_ext H sb w
  obtain ⟨n2, e2, a2, g2⟩ := SmartNavigateBack_ext H sb (upHandover H sb w)
  rw [SmartNavigateUp_unfold]
  by_cases h1 : (NavigateToParent H (some sb) w).1 = true
  · simp only [h1, if_true]
    refine ⟨n1 ++ [], e1.trans (Ext.logIf _ _), by simp [a1], ?_⟩
    simpa using g1
  · simp only [h1, if_false]
    refine ⟨n1 ++ ([] ++ n2), e1.trans ((Ext.logIf _ _).trans e2), ?_, ?_⟩
    · simp [attempts_append, a1, a2, Nat.add_comm 1, List.take_succ_cons]
    · intro c hc
      simp only [List.mem_append, List.not_mem_nil, false_or] at hc
      rcases hc with hc | hc
      · exact g1 c hc
      · exact g2 c hc

/-! ## Claims on the fallback chains -/

/-- C1. For every non-null session `sb`, `SmartNavigateBack` attempts the
targets in the order Back, Parent, RootCollection, DesktopCollection and stops
right after the first one that succeeds: its attempts are the first `k` targets
of the Back-chain, where the `k`-th target is the first to succeed (`k = 4` when
none does), and it returns true iff some target succeeded. -/
theorem SmartNavigateBack_fallback_order (H : Host σ) (sb : Handle) (w : World σ) :
    (SmartNavigateBack H (some sb) w).2.calls =
        w.calls ++ newCalls w (SmartNavigateBack H (some sb) w).2 ∧
    attempts (newCalls w (SmartNavigateBack H (some sb) w).2) =
        backChain.take (firstSuccess H sb w) ∧
    (SmartNavigateBack H (some sb) w).1 =
        ((tryBack H sb w).1 || (tryParent H sb w).1 || (tryRoot H sb w).1 ||
          (tryDesktop H sb w).1) ∧
    ((tryBack H sb w).1 = true →
        (SmartNavigateBack H (some sb) w).1 = true ∧
        attempts (newCalls w (SmartNavigateBack H (some sb) w).2) = [.Back]) ∧
    ((tryBack H sb w).1 = false → (tryParent H sb w).1 = true →
        (SmartNavigateBack H (some sb) w) = (true, (tryParent H sb w).2) ∧
        attempts (newCalls w (SmartNavigateBack H (some sb) w).2) = [.Back, .Parent]) ∧
    ((tryBack H sb w).1 = false → (tryParent H sb w).1 = false → (tryRoot H sb w).1 = true →
        (SmartNavigateBack H (some sb) w) = (true, (tryRoot H sb w).2) ∧
        attempts (newCalls w (SmartNavigateBack H (some sb) w).2) =
          [.Back, .Parent, .RootCollection]) ∧
    ((tryBack H sb w).1 = false → (tryParent H sb w).1 = false → (tryRoot H sb w).1 = false →
        (SmartNavigateBack H (some sb) w) = tryDesktop H sb w ∧
        attempts (newCalls w (SmartNavigateBack H (some sb) w).2) =
          [.Back, .Parent, .RootCollection, .DesktopCollection]) := by
  obtain ⟨new, e, a, -⟩ := SmartNavigateBack_ext H sb w
  have hn := e.newCalls_eq
  refine ⟨e.calls_eq, by rw [hn, a], SmartNavigateBack_result H sb w, ?_, ?_, ?_, ?_⟩
  · intro h1
    rw [hn, a]
    simp [SmartNavigateBack_unfold, firstSuccess, h1, backChain]
  · intro h1 h2
    rw [hn, a]
    simp [SmartNavigateBack_unfold, firstSuccess, h1, h2, backChain]
  · intro h1 h2 h3
    rw [hn, a]
    simp [SmartNavigateBack_unfold, firstSuccess, h1, h2, h3, backChain]
  · intro h1 h2 h3
    rw [hn, a]
    simp [SmartNavigateBack_unfold, firstSuccess, h1, h2, h3, backChain]

/-- C1, on a concrete session: at the desktop root with no history and the
drives collection unreachable only Desktop succeeds, after four attempts. -/
theorem SmartNavigateBack_fallback_order_witness :
    (tryBack rootHost 0 rootWorld).1 = false ∧ (tryParent rootHost 0 rootWorld).1 = false ∧
    (tryRoot rootHost 0 rootWorld).1 = false ∧
    SmartNavigateBack rootHost (some 0) rootWorld = tryDesktop rootHost 0 rootWorld ∧
    (SmartNavigateBack rootHost (some 0) rootWorld).1 = true ∧
    attempts (newCalls rootWorld (SmartNavigateBack rootHost (some 0) rootWorld).2) =
      [.Back, .Parent, .RootCollection, .DesktopCollection] :=
  ⟨by decide, by decide, by decide,
    ((SmartNavigateBack_fallback_order rootHost 0 rootWorld).2.2.2.2.2.2
      (by decide) (by decide) (by decide)).1,
    by decide,
    ((SmartNavigateBack_fallback_order rootHost 0 rootWorld).2.2.2.2.2.2
      (by decide) (by decide) (by decide)).2⟩

/-- C2 as stated fails. At the desktop root with no history the first Parent
attempt of `SmartNavigateUp` fails, Back fails, and Parent is then attempted a
second time by the Back-chain: the attempts are Parent, Back, Parent,
RootCollection, DesktopCollection, so a target is repeated and Parent is
attempted twice. -/
theorem SmartNavigateUp_repeats_parent :
    (NavigateToParent rootHost (some 0) rootWorld).1 = false ∧
    attempts (newCalls rootWorld (SmartNavigateUp rootHost (some 0) rootWorld).2) =
      [.Parent, .Back, .Parent, .RootCollection, .DesktopCollection] ∧
    (attempts (newCalls rootWorld (SmartNavigateUp rootHost (some 0) rootWorld).2)).count
      .Parent = 2 ∧
    ¬ (attempts (newCalls rootWorld (SmartNavigateUp rootHost (some 0) rootWorld).2)).Nodup := by
  decide

/-- C2, amended. For every non-null session the attempts of `SmartNavigateUp`
are an initial part of Parent, Back, Parent, RootCollection, DesktopCollection,
ending with the first attempt that succeeds. Back, RootCollection and
DesktopCollection are attempted at most once. Parent is attempted once when the
first Parent attempt or the Back attempt succeeds, and twice when both fail. -/
theorem SmartNavigateUp_attempts (H : Host σ) (sb : Handle) (w : World σ) :
    attempts (newCalls w (SmartNavigateUp H (some sb) w).2) =
      (NavigationTarget.Parent :: backChain).take
        (if (NavigateToParent H (some sb) w).1 then 1
         else 1 + firstSuccess H sb (upHandover H sb w)) ∧
    (attempts (newCalls w (SmartNavigateUp H (some sb) w).2)).count .Parent =
      (if (NavigateToParent H (some sb) w).1 = true ∨
          (tryBack H sb (upHandover H sb w)).1 = true then 1 else 2) ∧
    (attempts (newCalls w (SmartNavigateUp H (some sb) w).2)).count .Back ≤ 1 ∧
    (attempts (newCalls w (SmartNavigateUp H (some sb) w).2)).count .RootCollection ≤ 1 ∧
    (attempts (newCalls w (SmartNavigateUp H (some sb) w).2)).count .DesktopCollection ≤ 1 := by
  obtain ⟨new, e, a, -⟩ := SmartNavigateUp_ext H sb w
  rw [e.newCalls_eq, a]
  refine ⟨rfl, ?_, ?_, ?_, ?_⟩ <;>
  · unfold firstSuccess backChain
    by_cases h0 : (NavigateToParent H (some sb) w).1 = true
    · simp [h0]
    · by_cases h1 : (tryBack H sb (upHandover H sb w)).1 = true
      · simp [h0, h1]
      · by_cases h2 : (tryParent H sb (upHandover H sb w)).1 = true
        · simp [h0, h1, h2]
        · by_cases h3 : (tryRoot H sb (upHandover H sb w)).1 = true
          · simp [h0, h1, h2, h3]
          · simp [h0, h1, h2, h3]

/-- C3. For every non-null session: when the Parent attempt succeeds,
`SmartNavigateUp` returns true after that one attempt. When it fails, the result
and final world of `SmartNavigateUp` are those of `SmartNavigateBack` run on the
host state the failed attempt left, and its attempts are the Parent attempt
followed by the attempts of that run, which is the full Back-chain walk. -/
theorem SmartNavigateUp_delegates (H : Host σ) (sb : Handle) (w : World σ) :
    ((NavigateToParent H (some sb) w).1 = true →
      (SmartNavigateUp H (some sb) w).1 = true ∧
      attempts (newCalls w (SmartNavigateUp H (some sb) w).2) = [.Parent]) ∧
    ((NavigateToParent H (some sb) w).1 = false →
      (upHandover H sb w).host = (NavigateToParent H (some sb) w).2.host ∧
      (upHandover H sb w).calls = (NavigateToParent H (some sb) w).2.calls ∧
      SmartNavigateUp H (some sb) w = SmartNavigateBack H (some sb) (upHandover H sb w) ∧
      newCalls w (SmartNavigateUp H (some sb) w).2 =
        newCalls w (NavigateToParent H (some sb) w).2 ++
          newCalls (upHandover H sb w) (SmartNavigateBack H (some sb) (upHandover H sb w)).2 ∧
      attempts (newCalls w (NavigateToParent H (some sb) w).2) = [.Parent] ∧
      attempts (newCalls w (SmartNavigateUp H (some sb) w).2) =
        .Parent :: attempts
          (newCalls (upHandover H sb w) (SmartNavigateBack H (some sb) (upHandover H sb w)).2) ∧
      attempts
          (newCalls (upHandover H sb w) (SmartNavigateBack H (some sb) (upHandover H sb w)).2) =
        backChain.take (firstSuccess H sb (upHandover H sb w))) := by
  obtain ⟨n1, e1, a1, -⟩ := NavigateToParent_ext H sb w
  obtain ⟨n2, e2, a2, -⟩ := SmartNavigateBack_ext H sb (upHandover H sb w)
  have hl : Ext (NavigateToParent H (some sb) w).2 (upHandover H sb w) [] := Ext.logIf _ _
  have hhost : (upHandover H sb w).host = (NavigateToParent H (some sb) w).2.host := by
    unfold upHandover logIf Wh_Log
    split <;> rfl
  constructor
  · intro h
    have hu : SmartNavigateUp H (some sb) w =
        (true, logIf "Navigate up succeeded" (NavigateToParent H (some sb) w).2) := by
      rw [SmartNavigateUp_unfold]; simp [h]
    have := e1.trans (Ext.logIf "Navigate up succeeded" _)
    rw [hu]
    refine ⟨rfl, ?_⟩
    rw [this.newCalls_eq]
    simp [a1]
  · intro h
    have hu : SmartNavigateUp H (some sb) w =
        SmartNavigateBack H (some sb) (upHandover H sb w) := by
      rw [SmartNavigateUp_unfold]; simp [h]
    have hall := e1.trans (hl.trans e2)
    rw [← hu] at hall
    refine ⟨hhost, by simpa using hl.calls, hu, ?_, ?_, ?_, ?_⟩
    · rw [hall.newCalls_eq, e1.newCalls_eq, e2.newCalls_eq]; simp
    · rw [e1.newCalls_eq, a1]
    · rw [hall.newCalls_eq, e2.newCalls_eq]; simp [attempts_append, a1]
    · rw [e2.newCalls_eq, a2]

/-- C3, on a concrete session: at `C:\Users\X\Docs` the Parent attempt
succeeds and `SmartNavigateUp` stops after it; at the desktop root it fails and
the call continues as the full Back-chain. -/
theorem SmartNavigateUp_delegates_witness :
    ((SmartNavigateUp (scriptHost (openShell [] noKeys)) (some 0)
        (World.start { location := docs, history := [] }
          { upHotkey := "shift", enableLogging := false })).1 = true ∧
      attempts (newCalls (World.start { location := docs, history := [] }
          { upHotkey := "shift", enableLogging := false })
        (SmartNavigateUp (scriptHost (openShell [] noKeys)) (some 0)
          (World.start { location := docs, history := [] }
            { upHotkey := "shift", enableLogging := false })).2) = [.Parent]) ∧
    SmartNavigateUp rootHost (some 0) rootWorld =
      SmartNavigateBack rootHost (some 0) (upHandover rootHost 0 rootWorld) :=
  ⟨(SmartNavigateUp_delegates (scriptHost (openShell [] noKeys)) 0
      (World.start { location := docs, history := [] }
        { upHotkey := "shift", enableLogging := false })).1 (by decide),
    ((SmartNavigateUp_delegates rootHost 0 rootWorld).2 (by decide)).2.2.1⟩

/-! ## Parent resolution -/

/-- C7. Parent resolution. When the current folder identity of the session can
be obtained: if it has no last component to remove, `NavigateToParent` returns
false and issues no navigation; otherwise it issues exactly one navigation, the
absolute one to the identity with its last component removed, and returns
whether that navigation succeeded. When the active view, the folder object or
the identity cannot be obtained it returns false and issues no navigation. -/
theorem NavigateToParent_resolution (H : Host σ) (sb : Handle) (w : World σ) :
    (∀ ids s, currentIdentity H sb w = some (ids, s) →
      (ids = [] →
        (NavigateToParent H (some sb) w).1 = false ∧
        navigations w (NavigateToParent H (some sb) w).2 = []) ∧
      (ids ≠ [] →
        navigations w (NavigateToParent H (some sb) w).2 =
          [.BrowseObject sb (.absolute ids.dropLast)] ∧
        (NavigateToParent H (some sb) w).1 =
          (H.BrowseObject sb (.absolute ids.dropLast) s).1)) ∧
    (currentIdentity H sb w = none →
      (NavigateToParent H (some sb) w).1 = false ∧
      navigations w (NavigateToParent H (some sb) w).2 = []) := by
  unfold currentIdentity navigations newCalls NavigateToParent
  simp only [hostCall, acquire, release]
  constructor
  · intro ids s h
    split_ifs at h with hv hf
    split at h
    · rename_i ids2 hc
      simp only [Option.some.injEq, Prod.mk.injEq] at h
      obtain ⟨rfl, rfl⟩ := h
      simp only [hv, hf, if_true, hc]
      constructor
      · intro he
        subst he
        simp [ILRemoveLastID, isNavigation]
      · intro hne
        simp [ILRemoveLastID, hne, isNavigation]
    · simp at h
  · intro h
    split_ifs at h with hv hf
    · split at h
      · simp at h
      · rename_i hc
        simp [hv, hf, hc, isNavigation]
    · simp [hv, hf, isNavigation]
    · simp [hv, isNavigation]

/-- C7, on a concrete session: at `C:\Users\X\Docs` the one navigation goes
to `C:\Users\X` and succeeds. -/
theorem NavigateToParent_resolution_witness :
    currentIdentity (scriptHost (openShell [] noKeys)) 0
        (World.start { location := docs, history := [] }
          { upHotkey := "shift", enableLogging := false }) =
      some (docs, { location := docs, history := [] }) ∧
    docs ≠ [] ∧
    navigations (World.start { location := docs, history := [] }
        { upHotkey := "shift", enableLogging := false })
      (NavigateToParent (scriptHost (openShell [] noKeys)) (some 0)
        (World.start { location := docs, history := [] }
          { upHotkey := "shift", enableLogging := false })).2 =
      [.BrowseObject 0 (.absolute ["This PC", "C:", "Users", "X"])] :=
  ⟨by rfl, by decide,
    (((NavigateToParent_resolution (scriptHost (openShell [] noKeys)) 0
      (World.start { location := docs, history := [] }
        { upHotkey := "shift", enableLogging := false })).1 docs
      { location := docs, history := [] } (by rfl)).2 (by decide)).1⟩

/-! ## The dispatcher -/

theorem filter_isOriginal_of_resolve {l : List HostCall} (h : ∀ c ∈ l, isResolve c = true) :
    l.filter isOriginal = [] := by
  rw [List.filter_eq_nil_iff]
  intro c hc
  have := h c hc
  cases c <;> simp_all [isResolve, isOriginal]

theorem filter_isOriginal_of_engine {l : List HostCall} (h : ∀ c ∈ l, isEngine c = true) :
    l.filter isOriginal = [] := by
  rw [List.filter_eq_nil_iff]
  intro c hc
  simp [isEngine_not_original (h c hc)]

theorem attempts_of_resolve {l : List HostCall} (h : ∀ c ∈ l, isResolve c = true) :
    attempts l = [] := by
  unfold attempts
  rw [List.filterMap_eq_nil_iff]
  intro c hc
  have := h c hc
  cases c <;> simp_all [isResolve, attemptOf]

theorem filter_isEngine_of_resolve {l : List HostCall} (h : ∀ c ∈ l, isResolve c = true) :
    l.filter isEngine = [] := by
  rw [List.filter_eq_nil_iff]
  intro c hc
  have := h c hc
  cases c <;> simp_all [isResolve, isEngine]

theorem GetShellBrowserFromHwnd_settings (H : Host σ) (hWnd : Hwnd) (w : World σ) :
    (GetShellBrowserFromHwnd H hWnd w).2.settings = w.settings := by
  unfold GetShellBrowserFromHwnd
  simp only
  split
  · split_ifs <;> rfl
  · rfl

theorem GetShellBrowserFromHwnd_some (H : Host σ) (hWnd : Hwnd) (w : World σ) (psb : Handle)
    (hg : (GetShellBrowserFromHwnd H hWnd w).1 = some psb) :
    ∃ newR q, psb = q.next ∧ (GetShellBrowserFromHwnd H hWnd w).2 = (acquire q).2 ∧
      Ext w q newR ∧ ∀ c ∈ newR, isResolve c = true := by
  unfold GetShellBrowserFromHwnd at hg ⊢
  simp only at hg ⊢
  split at hg
  · rename_i punk hp
    split_ifs at hg with hq
    simp only [hp, hq, if_true]
    simp only [Option.some.injEq] at hg
    exact ⟨_, _, hg.symm, rfl, (Ext.hostRead _ _ w).trans (Ext.hostCall _ _ _),
      by simp [isResolve]⟩
  · simp at hg

theorem GetShellBrowserFromHwnd_none (H : Host σ) (hWnd : Hwnd) (w : World σ)
    (hg : (GetShellBrowserFromHwnd H hWnd w).1 = none) :
    ∃ newR, Ext w (GetShellBrowserFromHwnd H hWnd w).2 newR ∧
      ∀ c ∈ newR, isResolve c = true := by
  unfold GetShellBrowserFromHwnd at hg ⊢
  simp only at hg ⊢
  split at hg
  · rename_i punk hp
    split_ifs at hg with hq
    simp only [hp, hq]
    exact ⟨_, (Ext.hostRead _ _ w).trans (Ext.hostCall _ _ _), by simp [isResolve]⟩
  · rename_i hp
    simp only [hp]
    exact ⟨_, Ext.hostRead _ _ w, by simp [isResolve]⟩

theorem hook_pass (H : Host σ) (hWnd : Hwnd) (hAccTable : Haccel) (lpMsg : Msg) (w : World σ)
    (h : ¬ (lpMsg.message = WM_KEYDOWN ∧ lpMsg.wParam = VK_BACK) ∨
      keyDown (H.GetKeyState w.host VK_CONTROL) = true) :
    TranslateAcceleratorW_Hook H hWnd hAccTable lpMsg w =
      callOriginal H hWnd hAccTable lpMsg w := by
  unfold TranslateAcceleratorW_Hook
  by_cases hk : lpMsg.message = WM_KEYDOWN
  · by_cases hb : lpMsg.wParam = VK_BACK
    · rcases h with h | h
      · exact absurd ⟨hk, hb⟩ h
      · simp [hk, hb, h]
    · simp [hk, hb]
  · simp [hk]

theorem hook_unresolved (H : Host σ) (hWnd : Hwnd) (hAccTable : Haccel) (lpMsg : Msg)
    (w : World σ) (hk : lpMsg.message = WM_KEYDOWN) (hb : lpMsg.wParam = VK_BACK)
    (hc : keyDown (H.GetKeyState w.host VK_CONTROL) = false)
    (hg : (GetShellBrowserFromHwnd H hWnd w).1 = none) :
    TranslateAcceleratorW_Hook H hWnd hAccTable lpMsg w =
      callOriginal H hWnd hAccTable lpMsg (GetShellBrowserFromHwnd H hWnd w).2 := by
  unfold TranslateAcceleratorW_Hook
  simp only [hk, hb, hc, and_self, if_true, hg]

theorem hook_up (H : Host σ) (hWnd : Hwnd) (hAccTable : Haccel) (lpMsg : Msg)
    (w : World σ) (psb : Handle) (hk : lpMsg.message = WM_KEYDOWN) (hb : lpMsg.wParam = VK_BACK)
    (hc : keyDown (H.GetKeyState w.host VK_CONTROL) = false)
    (hg : (GetShellBrowserFromHwnd H hWnd w).1 = some psb)
    (hu : upHotkeyHeld w.settings (keyDown (H.GetKeyState w.host VK_SHIFT))
      (keyDown (H.GetKeyState w.host VK_MENU))) :
    TranslateAcceleratorW_Hook H hWnd hAccTable lpMsg w =
      dispatchTo H SmartNavigateUp "Up hotkey detected" psb hWnd hAccTable lpMsg
        (GetShellBrowserFromHwnd H hWnd w).2 := by
  unfold upHotkeyHeld at hu
  unfold TranslateAcceleratorW_Hook dispatchTo
  simp only [hk, hb, hc, and_self, if_true, hg, GetShellBrowserFromHwnd_settings, hu]

theorem hook_back (H : Host σ) (hWnd : Hwnd) (hAccTable : Haccel) (lpMsg : Msg)
    (w : World σ) (psb : Handle) (hk : lpMsg.message = WM_KEYDOWN) (hb : lpMsg.wParam = VK_BACK)
    (hc : keyDown (H.GetKeyState w.host VK_CONTROL) = false)
    (hg : (GetShellBrowserFromHwnd H hWnd w).1 = some psb)
    (hu : ¬ upHotkeyHeld w.settings (keyDown (H.GetKeyState w.host VK_SHIFT))
      (keyDown (H.GetKeyState w.host VK_MENU)))
    (hs : keyDown (H.GetKeyState w.host VK_SHIFT) = false)
    (ha : keyDown (H.GetKeyState w.host VK_MENU) = false) :
    TranslateAcceleratorW_Hook H hWnd hAccTable lpMsg w =
      dispatchTo H SmartNavigateBack "Backspace detected" psb hWnd hAccTable lpMsg
        (GetShellBrowserFromHwnd H hWnd w).2 := by
  unfold upHotkeyHeld at hu
  unfold TranslateAcceleratorW_Hook dispatchTo
  simp only [hk, hb, hc, and_self, if_true, hg, GetShellBrowserFromHwnd_settings, hu, if_false]
  simp only [hs, ha, and_self, if_true]

theorem hook_other (H : Host σ) (hWnd : Hwnd) (hAccTable : Haccel) (lpMsg : Msg)
    (w : World σ) (psb : Handle) (hk : lpMsg.message = WM_KEYDOWN) (hb : lpMsg.wParam = VK_BACK)
    (hc : keyDown (H.GetKeyState w.host VK_CONTROL) = false)
    (hg : (GetShellBrowserFromHwnd H hWnd w).1 = some psb)
    (hu : ¬ upHotkeyHeld w.settings (keyDown (H.GetKeyState w.host VK_SHIFT))
      (keyDown (H.GetKeyState w.host VK_MENU)))
    (hsa : ¬ (keyDown (H.GetKeyState w.host VK_SHIFT) = false ∧
      keyDown (H.GetKeyState w.host VK_MENU) = false)) :
    TranslateAcceleratorW_Hook H hWnd hAccTable lpMsg w =
      callOriginal H hWnd hAccTable lpMsg (release psb (GetShellBrowserFromHwnd H hWnd w).2) := by
  unfold upHotkeyHeld at hu
  unfold TranslateAcceleratorW_Hook
  simp only [hk, hb, hc, and_self, if_true, hg, GetShellBrowserFromHwnd_settings, hu, if_false,
    hsa]
  simp

theorem resolved_ext {E : Host σ → Option Handle → World σ → Bool × World σ} (H : Host σ)
    (line : String) (q : World σ) {newE : List HostCall}
    (hE : Ext (logIf line (acquire q).2) (E H (some q.next) (logIf line (acquire q).2)).2 newE) :
    Ext q (release q.next (E H (some q.next) (logIf line (acquire q).2)).2) newE := by
  have h : Ext (acquire q).2 (E H (some q.next) (logIf line (acquire q).2)).2 newE := by
    simpa using (Ext.logIf line (acquire q).2).trans hE
  exact Ext.nest h

theorem dispatchTo_ext {E : Host σ → Option Handle → World σ → Bool × World σ} (H : Host σ)
    (line : String) (hWnd : Hwnd) (hAccTable : Haccel) (lpMsg : Msg) (w q : World σ)
    {newR newE : List HostCall} (hR : Ext w q newR)
    (hE : Ext (logIf line (acquire q).2) (E H (some q.next) (logIf line (acquire q).2)).2 newE) :
    ∃ tail, Ext w (dispatchTo H E line q.next hWnd hAccTable lpMsg (acquire q).2).2
        (newR ++ newE ++ tail) ∧
      (tail = [] ∨ tail = [.TranslateAcceleratorW_Original hWnd hAccTable lpMsg]) := by
  unfold dispatchTo
  split_ifs
  · exact ⟨[], by simpa using hR.trans (resolved_ext H line q hE), Or.inl rfl⟩
  · exact ⟨_, by
      simpa [callOriginal] using
        (hR.trans (resolved_ext H line q hE)).trans (Ext.hostCall _ _ _), Or.inr rfl⟩

theorem dispatchTo_consumesIff {E : Host σ → Option Handle → World σ → Bool × World σ}
    (H : Host σ) (line : String) (hWnd : Hwnd) (hAccTable : Haccel) (lpMsg : Msg)
    (w q : World σ) {newR newE : List HostCall} (hR : Ext w q newR)
    (hRr : ∀ c ∈ newR, isResolve c = true)
    (hE : Ext (logIf line (acquire q).2) (E H (some q.next) (logIf line (acquire q).2)).2 newE)
    (hEe : ∀ c ∈ newE, isEngine c = true) :
    ConsumesIff H E line q.next hWnd hAccTable lpMsg w (acquire q).2
      (dispatchTo H E line q.next hWnd hAccTable lpMsg (acquire q).2) := by
  have X := hR.trans (resolved_ext H line q hE)
  unfold ConsumesIff dispatchTo
  constructor
  · intro hd
    rw [if_pos hd]
    refine ⟨rfl, ?_⟩
    rw [X.newCalls_eq]
    simp [List.filter_append, filter_isOriginal_of_resolve hRr, filter_isOriginal_of_engine hEe]
  · intro hd
    have Y := X.trans (Ext.hostCall (.TranslateAcceleratorW_Original hWnd hAccTable lpMsg)
      (H.TranslateAcceleratorW_Original hWnd hAccTable lpMsg) _)
    rw [if_neg (by simp [hd])]
    refine ⟨rfl, ?_, ?_⟩
    · unfold callOriginal
      rw [Y.newCalls_eq]
      simp [List.filter_append, filter_isOriginal_of_resolve hRr,
        filter_isOriginal_of_engine hEe, isOriginal]
    · simp [callOriginal, hostCall, release]

theorem hook_ext (H : Host σ) (hWnd : Hwnd) (hAccTable : Haccel) (lpMsg : Msg) (w : World σ) :
    ∃ new, Ext w (TranslateAcceleratorW_Hook H hWnd hAccTable lpMsg w).2 new := by
  by_cases hp : ¬ (lpMsg.message = WM_KEYDOWN ∧ lpMsg.wParam = VK_BACK) ∨
      keyDown (H.GetKeyState w.host VK_CONTROL) = true
  · rw [hook_pass H hWnd hAccTable lpMsg w hp]
    exact ⟨_, Ext.hostCall _ _ _⟩
  · simp only [not_or, not_not, Bool.not_eq_true] at hp
    obtain ⟨⟨hk, hb⟩, hc⟩ := hp
    cases hg : (GetShellBrowserFromHwnd H hWnd w).1 with
    | none =>
      rw [hook_unresolved H hWnd hAccTable lpMsg w hk hb hc hg]
      obtain ⟨newR, hR, -⟩ := GetShellBrowserFromHwnd_none H hWnd w hg
      exact ⟨_, hR.trans (Ext.hostCall _ _ _)⟩
    | some psb =>
      obtain ⟨newR, q, rfl, hq, hR, -⟩ := GetShellBrowserFromHwnd_some H hWnd w psb hg
      by_cases hu : upHotkeyHeld w.settings (keyDown (H.GetKeyState w.host VK_SHIFT))
          (keyDown (H.GetKeyState w.host VK_MENU))
      · rw [hook_up H hWnd hAccTable lpMsg w _ hk hb hc hg hu, hq]
        obtain ⟨newE, hE, -, -⟩ :=
          SmartNavigateUp_ext H q.next (logIf "Up hotkey detected" (acquire q).2)
        obtain ⟨tail, hX, -⟩ := dispatchTo_ext H _ hWnd hAccTable lpMsg w q hR hE
        exact ⟨_, hX⟩
      · by_cases hsa : keyDown (H.GetKeyState w.host VK_SHIFT) = false ∧
            keyDown (H.GetKeyState w.host VK_MENU) = false
        · rw [hook_back H hWnd hAccTable lpMsg w _ hk hb hc hg hu hsa.1 hsa.2, hq]
          obtain ⟨newE, hE, -, -⟩ :=
            SmartNavigateBack_ext H q.next (logIf "Backspace detected" (acquire q).2)
          obtain ⟨tail, hX, -⟩ := dispatchTo_ext H _ hWnd hAccTable lpMsg w q hR hE
          exact ⟨_, hX⟩
        · rw [hook_other H hWnd hAccTable lpMsg w _ hk hb hc hg hu hsa, hq]
          exact ⟨_, (hR.trans (Ext.nest (Ext.refl _))).trans (Ext.hostCall _ _ _)⟩

/-! ## Claims on the dispatcher -/

/-- C4. For a Backspace key-down without control that is classified as
NavigateUp (the configured modifier is held) or NavigateBack (neither shift nor
alt is held): with a resolved session the hook returns `TRUE` without calling the
original entry point when the engine call returned true, and when the engine
call returned false it calls the original entry point exactly once, with the
same window handle, accelerator table and message, and returns its result; when
no session is resolved it likewise calls the original entry point once and
returns its result. -/
theorem TranslateAcceleratorW_Hook_consumes_iff (H : Host σ) (hWnd : Hwnd) (hAccTable : Haccel)
    (lpMsg : Msg) (w : World σ) (hk : lpMsg.message = WM_KEYDOWN) (hb : lpMsg.wParam = VK_BACK)
    (hc : ctrlHeld H w = false) :
    (upHotkeyHeld w.settings (shiftHeld H w) (altHeld H w) →
      ∀ psb, (GetShellBrowserFromHwnd H hWnd w).1 = some psb →
        ConsumesIff H SmartNavigateUp "Up hotkey detected" psb hWnd hAccTable lpMsg w
          (GetShellBrowserFromHwnd H hWnd w).2
          (TranslateAcceleratorW_Hook H hWnd hAccTable lpMsg w)) ∧
    (¬ upHotkeyHeld w.settings (shiftHeld H w) (altHeld H w) →
      shiftHeld H w = false → altHeld H w = false →
      ∀ psb, (GetShellBrowserFromHwnd H hWnd w).1 = some psb →
        ConsumesIff H SmartNavigateBack "Backspace detected" psb hWnd hAccTable lpMsg w
          (GetShellBrowserFromHwnd H hWnd w).2
          (TranslateAcceleratorW_Hook H hWnd hAccTable lpMsg w)) ∧
    ((GetShellBrowserFromHwnd H hWnd w).1 = none →
      TranslateAcceleratorW_Hook H hWnd hAccTable lpMsg w =
        callOriginal H hWnd hAccTable lpMsg (GetShellBrowserFromHwnd H hWnd w).2 ∧
      (newCalls w (TranslateAcceleratorW_Hook H hWnd hAccTable lpMsg w).2).filter isOriginal =
        [.TranslateAcceleratorW_Original hWnd hAccTable lpMsg] ∧
      (newCalls w (TranslateAcceleratorW_Hook H hWnd hAccTable lpMsg w).2).filter isEngine = [] ∧
      (TranslateAcceleratorW_Hook H hWnd hAccTable lpMsg w).1 =
        (H.TranslateAcceleratorW_Original hWnd hAccTable lpMsg
          (GetShellBrowserFromHwnd H hWnd w).2.host).1) := by
  unfold ctrlHeld at hc
  unfold shiftHeld altHeld
  refine ⟨?_, ?_, ?_⟩
  · intro hu psb hg
    obtain ⟨newR, q, rfl, hq, hR, hRr⟩ := GetShellBrowserFromHwnd_some H hWnd w psb hg
    rw [hook_up H hWnd hAccTable lpMsg w _ hk hb hc hg hu, hq]
    obtain ⟨newE, hE, -, hEe⟩ :=
      SmartNavigateUp_ext H q.next (logIf "Up hotkey detected" (acquire q).2)
    exact dispatchTo_consumesIff H _ hWnd hAccTable lpMsg w q hR hRr hE hEe
  · intro hu hs ha psb hg
    obtain ⟨newR, q, rfl, hq, hR, hRr⟩ := GetShellBrowserFromHwnd_some H hWnd w psb hg
    rw [hook_back H hWnd hAccTable lpMsg w _ hk hb hc hg hu hs ha, hq]
    obtain ⟨newE, hE, -, hEe⟩ :=
      SmartNavigateBack_ext H q.next (logIf "Backspace detected" (acquire q).2)
    exact dispatchTo_consumesIff H _ hWnd hAccTable lpMsg w q hR hRr hE hEe
  · intro hg
    obtain ⟨newR, hR, hRr⟩ := GetShellBrowserFromHwnd_none H hWnd w hg
    rw [hook_unresolved H hWnd hAccTable lpMsg w hk hb hc hg]
    have Y := hR.trans (Ext.hostCall (.TranslateAcceleratorW_Original hWnd hAccTable lpMsg)
      (H.TranslateAcceleratorW_Original hWnd hAccTable lpMsg) _)
    refine ⟨rfl, ?_, ?_, rfl⟩
    · unfold callOriginal
      rw [Y.newCalls_eq]
      simp [List.filter_append, filter_isOriginal_of_resolve hRr, isOriginal]
    · unfold callOriginal
      rw [Y.newCalls_eq]
      simp [List.filter_append, filter_isEngine_of_resolve hRr, isEngine]

/-- C4, on a concrete event: plain Backspace at `C:\Users\X\Docs` with an
empty history. -/
theorem TranslateAcceleratorW_Hook_consumes_iff_witness :
    backspaceDown.message = WM_KEYDOWN ∧ backspaceDown.wParam = VK_BACK ∧
    ctrlHeld (scriptHost (openShell [] noKeys)) (docsWorld "shift") = false ∧
    ConsumesIff (scriptHost (openShell [] noKeys)) SmartNavigateBack "Backspace detected" 0 1 2
      backspaceDown (docsWorld "shift")
      (GetShellBrowserFromHwnd (scriptHost (openShell [] noKeys)) 1 (docsWorld "shift")).2
      (TranslateAcceleratorW_Hook (scriptHost (openShell [] noKeys)) 1 2 backspaceDown
        (docsWorld "shift")) :=
  ⟨by decide, by decide, by decide,
    (TranslateAcceleratorW_Hook_consumes_iff (scriptHost (openShell [] noKeys)) 1 2
      backspaceDown (docsWorld "shift") (by decide) (by decide) (by decide)).2.1
      (by simp [upHotkeyHeld, wcscmp_eq_zero, docsWorld, World.start, shiftHeld, altHeld,
        keyDown, scriptHost, openShell, noKeys])
      (by decide) (by decide) 0 (by rfl)⟩

theorem upHotkeyHeld_shift {s : Settings} (h : s.upHotkey = "shift") (a b : Bool) :
    upHotkeyHeld s a b ↔ a = true := by
  unfold upHotkeyHeld
  rw [wcscmp_eq_zero, wcscmp_eq_zero, h]
  simp

theorem upHotkeyHeld_alt {s : Settings} (h : s.upHotkey = "alt") (a b : Bool) :
    upHotkeyHeld s a b ↔ b = true := by
  unfold upHotkeyHeld
  rw [wcscmp_eq_zero, wcscmp_eq_zero, h]
  simp

theorem upHotkeyHeld_of_none {s : Settings} : ¬ upHotkeyHeld s false false := by
  unfold upHotkeyHeld
  simp

theorem hook_fallsThrough (H : Host σ) (hWnd : Hwnd) (hAccTable : Haccel) (lpMsg : Msg)
    (w : World σ) (psb : Handle) (hk : lpMsg.message = WM_KEYDOWN) (hb : lpMsg.wParam = VK_BACK)
    (hc : keyDown (H.GetKeyState w.host VK_CONTROL) = false)
    (hg : (GetShellBrowserFromHwnd H hWnd w).1 = some psb)
    (hu : ¬ upHotkeyHeld w.settings (keyDown (H.GetKeyState w.host VK_SHIFT))
      (keyDown (H.GetKeyState w.host VK_MENU)))
    (hsa : ¬ (keyDown (H.GetKeyState w.host VK_SHIFT) = false ∧
      keyDown (H.GetKeyState w.host VK_MENU) = false)) :
    FallsThrough H psb hWnd hAccTable lpMsg w
      (TranslateAcceleratorW_Hook H hWnd hAccTable lpMsg w) := by
  unfold FallsThrough
  rw [hook_other H hWnd hAccTable lpMsg w psb hk hb hc hg hu hsa]
  refine ⟨rfl, ?_⟩
  obtain ⟨newR, q, rfl, hq, hR, hRr⟩ := GetShellBrowserFromHwnd_some H hWnd w psb hg
  rw [hq]
  have Y := (hR.trans (Ext.nest (Ext.refl _))).trans
    (Ext.hostCall (.TranslateAcceleratorW_Original hWnd hAccTable lpMsg)
      (H.TranslateAcceleratorW_Original hWnd hAccTable lpMsg) (release (acquire q).1 (acquire q).2))
  unfold callOriginal
  have hY : newCalls w (hostCall (.TranslateAcceleratorW_Original hWnd hAccTable lpMsg)
      (H.TranslateAcceleratorW_Original hWnd hAccTable lpMsg) (release q.next (acquire q).2)).2 =
      newR ++ [] ++ [.TranslateAcceleratorW_Original hWnd hAccTable lpMsg] := Y.newCalls_eq
  rw [hY]
  simp [List.filter_append, filter_isEngine_of_resolve hRr, isEngine]

theorem hook_up_head (H : Host σ) (hWnd : Hwnd) (hAccTable : Haccel) (lpMsg : Msg)
    (w : World σ) (psb : Handle) (hk : lpMsg.message = WM_KEYDOWN) (hb : lpMsg.wParam = VK_BACK)
    (hc : keyDown (H.GetKeyState w.host VK_CONTROL) = false)
    (hg : (GetShellBrowserFromHwnd H hWnd w).1 = some psb)
    (hu : upHotkeyHeld w.settings (keyDown (H.GetKeyState w.host VK_SHIFT))
      (keyDown (H.GetKeyState w.host VK_MENU))) :
    (attempts (newCalls w (TranslateAcceleratorW_Hook H hWnd hAccTable lpMsg w).2)).head? =
      some .Parent := by
  obtain ⟨newR, q, rfl, hq, hR, hRr⟩ := GetShellBrowserFromHwnd_some H hWnd w psb hg
  rw [hook_up H hWnd hAccTable lpMsg w _ hk hb hc hg hu, hq]
  obtain ⟨newE, hE, aE, -⟩ :=
    SmartNavigateUp_ext H q.next (logIf "Up hotkey detected" (acquire q).2)
  obtain ⟨tail, hX, -⟩ := dispatchTo_ext H _ hWnd hAccTable lpMsg w q hR hE
  rw [hX.newCalls_eq, attempts_append, attempts_append, attempts_of_resolve hRr, aE]
  split_ifs
  · simp
  · simp [Nat.add_comm 1, List.take_succ_cons]

theorem Wh_ModSettingsChanged_host (H : Host σ) (w : World σ) :
    (Wh_ModSettingsChanged H w).host = w.host := by
  rfl

theorem Wh_ModSettingsChanged_upHotkey (H : Host σ) (w : World σ) :
    (Wh_ModSettingsChanged H w).settings.upHotkey = H.Wh_GetStringSetting w.host "upHotkey" := by
  rfl

/-- C5. For a Backspace key-down with control not held and a resolved session:
with the up-modifier configured as shift (alt) and only shift (alt) held the hook
runs `SmartNavigateUp`; with neither shift nor alt held it runs
`SmartNavigateBack`; with only the other modifier held it makes no engine call
and returns what the original entry point returns. The setting is read at the
time of the event: once a settings change has loaded `alt`, Shift+Backspace
falls through and Alt+Backspace runs `SmartNavigateUp`. -/
theorem TranslateAcceleratorW_Hook_classification (H : Host σ) (hWnd : Hwnd)
    (hAccTable : Haccel) (lpMsg : Msg) (hk : lpMsg.message = WM_KEYDOWN)
    (hb : lpMsg.wParam = VK_BACK) :
    (∀ (w : World σ) (psb : Handle), ctrlHeld H w = false →
      (GetShellBrowserFromHwnd H hWnd w).1 = some psb →
      (w.settings.upHotkey = "shift" → shiftHeld H w = true → altHeld H w = false →
        RunsUp H psb hWnd hAccTable lpMsg w
          (TranslateAcceleratorW_Hook H hWnd hAccTable lpMsg w)) ∧
      (w.settings.upHotkey = "alt" → altHeld H w = true → shiftHeld H w = false →
        RunsUp H psb hWnd hAccTable lpMsg w
          (TranslateAcceleratorW_Hook H hWnd hAccTable lpMsg w)) ∧
      (shiftHeld H w = false → altHeld H w = false →
        RunsBack H psb hWnd hAccTable lpMsg w
          (TranslateAcceleratorW_Hook H hWnd hAccTable lpMsg w)) ∧
      (w.settings.upHotkey = "shift" → shiftHeld H w = false → altHeld H w = true →
        FallsThrough H psb hWnd hAccTable lpMsg w
          (TranslateAcceleratorW_Hook H hWnd hAccTable lpMsg w)) ∧
      (w.settings.upHotkey = "alt" → altHeld H w = false → shiftHeld H w = true →
        FallsThrough H psb hWnd hAccTable lpMsg w
          (TranslateAcceleratorW_Hook H hWnd hAccTable lpMsg w))) ∧
    (∀ (w0 : World σ) (psb : Handle), H.Wh_GetStringSetting w0.host "upHotkey" = "alt" →
      ctrlHeld H (Wh_ModSettingsChanged H w0) = false →
      (GetShellBrowserFromHwnd H hWnd (Wh_ModSettingsChanged H w0)).1 = some psb →
      (shiftHeld H (Wh_ModSettingsChanged H w0) = true →
        altHeld H (Wh_ModSettingsChanged H w0) = false →
        FallsThrough H psb hWnd hAccTable lpMsg (Wh_ModSettingsChanged H w0)
          (TranslateAcceleratorW_Hook H hWnd hAccTable lpMsg (Wh_ModSettingsChanged H w0))) ∧
      (altHeld H (Wh_ModSettingsChanged H w0) = true →
        shiftHeld H (Wh_ModSettingsChanged H w0) = false →
        RunsUp H psb hWnd hAccTable lpMsg (Wh_ModSettingsChanged H w0)
          (TranslateAcceleratorW_Hook H hWnd hAccTable lpMsg (Wh_ModSettingsChanged H w0)))) := by
  have main : ∀ (w : World σ) (psb : Handle), ctrlHeld H w = false →
      (GetShellBrowserFromHwnd H hWnd w).1 = some psb →
      (w.settings.upHotkey = "shift" → shiftHeld H w = true → altHeld H w = false →
        RunsUp H psb hWnd hAccTable lpMsg w
          (TranslateAcceleratorW_Hook H hWnd hAccTable lpMsg w)) ∧
      (w.settings.upHotkey = "alt" → altHeld H w = true → shiftHeld H w = false →
        RunsUp H psb hWnd hAccTable lpMsg w
          (TranslateAcceleratorW_Hook H hWnd hAccTable lpMsg w)) ∧
      (shiftHeld H w = false → altHeld H w = false →
        RunsBack H psb hWnd hAccTable lpMsg w
          (TranslateAcceleratorW_Hook H hWnd hAccTable lpMsg w)) ∧
      (w.settings.upHotkey = "shift" → shiftHeld H w = false → altHeld H w = true →
        FallsThrough H psb hWnd hAccTable lpMsg w
          (TranslateAcceleratorW_Hook H hWnd hAccTable lpMsg w)) ∧
      (w.settings.upHotkey = "alt" → altHeld H w = false → shiftHeld H w = true →
        FallsThrough H psb hWnd hAccTable lpMsg w
          (TranslateAcceleratorW_Hook H hWnd hAccTable lpMsg w)) := by
    intro w psb hc hg
    unfold ctrlHeld at hc
    unfold shiftHeld altHeld RunsUp RunsBack
    refine ⟨?_, ?_, ?_, ?_, ?_⟩
    · intro hs h1 _
      exact hook_up H hWnd hAccTable lpMsg w psb hk hb hc hg
        ((upHotkeyHeld_shift hs _ _).2 h1)
    · intro hs h1 _
      exact hook_up H hWnd hAccTable lpMsg w psb hk hb hc hg
        ((upHotkeyHeld_alt hs _ _).2 h1)
    · intro h1 h2
      exact hook_back H hWnd hAccTable lpMsg w psb hk hb hc hg
        (by rw [h1, h2]; exact upHotkeyHeld_of_none) h1 h2
    · intro hs h1 h2
      exact hook_fallsThrough H hWnd hAccTable lpMsg w psb hk hb hc hg
        (by rw [upHotkeyHeld_shift hs]; simp [h1]) (by simp [h2])
    · intro hs h1 h2
      exact hook_fallsThrough H hWnd hAccTable lpMsg w psb hk hb hc hg
        (by rw [upHotkeyHeld_alt hs]; simp [h1]) (by simp [h2])
  refine ⟨main, ?_⟩
  intro w0 psb hstore hc hg
  have hs := (Wh_ModSettingsChanged_upHotkey H w0).trans hstore
  obtain ⟨-, m2, -, -, m5⟩ := main (Wh_ModSettingsChanged H w0) psb hc hg
  exact ⟨fun h1 h2 => m5 hs h2 h1, fun h1 h2 => m2 hs h1 h2⟩

/-- C6. An event that is not a Backspace key-down, or a Backspace key-down
with control held, is never intercepted: the hook makes exactly one host call,
the original entry point with the same arguments, so it resolves no session
and issues no navigation; it returns that call's result and acquires nothing. -/
theorem TranslateAcceleratorW_Hook_pass_through (H : Host σ) (hWnd : Hwnd)
    (hAccTable : Haccel) (lpMsg : Msg) (w : World σ)
    (h : ¬ (lpMsg.message = WM_KEYDOWN ∧ lpMsg.wParam = VK_BACK) ∨ ctrlHeld H w = true) :
    TranslateAcceleratorW_Hook H hWnd hAccTable lpMsg w =
      callOriginal H hWnd hAccTable lpMsg w ∧
    newCalls w (TranslateAcceleratorW_Hook H hWnd hAccTable lpMsg w).2 =
      [.TranslateAcceleratorW_Original hWnd hAccTable lpMsg] ∧
    (newCalls w (TranslateAcceleratorW_Hook H hWnd hAccTable lpMsg w).2).filter isResolve = [] ∧
    (newCalls w (TranslateAcceleratorW_Hook H hWnd hAccTable lpMsg w).2).filter isNavigation
      = [] ∧
    (TranslateAcceleratorW_Hook H hWnd hAccTable lpMsg w).1 =
      (H.TranslateAcceleratorW_Original hWnd hAccTable lpMsg w.host).1 ∧
    (TranslateAcceleratorW_Hook H hWnd hAccTable lpMsg w).2.res = w.res := by
  unfold ctrlHeld at h
  rw [hook_pass H hWnd hAccTable lpMsg w h]
  have hn : newCalls w (callOriginal H hWnd hAccTable lpMsg w).2 =
      [.TranslateAcceleratorW_Original hWnd hAccTable lpMsg] :=
    (Ext.hostCall _ _ w).newCalls_eq
  refine ⟨rfl, hn, ?_, ?_, rfl, rfl⟩
  · rw [hn]; simp [isResolve]
  · rw [hn]; simp [isNavigation]

/-- C5, on concrete events at `C:\Users\X\Docs`: with the up-modifier `shift`,
Shift+Backspace runs `SmartNavigateUp`; after a settings change that loads
`alt`, Shift+Backspace falls through. -/
theorem TranslateAcceleratorW_Hook_classification_witness :
    backspaceDown.message = WM_KEYDOWN ∧ backspaceDown.wParam = VK_BACK ∧
    RunsUp (scriptHost (openShell [] (onlyKey VK_SHIFT))) 0 1 2 backspaceDown (docsWorld "shift")
      (TranslateAcceleratorW_Hook (scriptHost (openShell [] (onlyKey VK_SHIFT))) 1 2
        backspaceDown (docsWorld "shift")) ∧
    FallsThrough (scriptHost (storeShell "alt" (onlyKey VK_SHIFT))) 0 1 2 backspaceDown
      (Wh_ModSettingsChanged (scriptHost (storeShell "alt" (onlyKey VK_SHIFT)))
        (docsWorld "shift"))
      (TranslateAcceleratorW_Hook (scriptHost (storeShell "alt" (onlyKey VK_SHIFT))) 1 2
        backspaceDown
        (Wh_ModSettingsChanged (scriptHost (storeShell "alt" (onlyKey VK_SHIFT)))
          (docsWorld "shift"))) :=
  ⟨by decide, by decide,
    ((TranslateAcceleratorW_Hook_classification (scriptHost (openShell [] (onlyKey VK_SHIFT)))
      1 2 backspaceDown (by decide) (by decide)).1 (docsWorld "shift") 0 (by decide)
      (by rfl)).1 (by rfl) (by decide) (by decide),
    ((TranslateAcceleratorW_Hook_classification (scriptHost (storeShell "alt" (onlyKey VK_SHIFT)))
      1 2 backspaceDown (by decide) (by decide)).2 (docsWorld "shift") 0 (by rfl) (by decide)
      (by rfl)).1 (by decide) (by decide)⟩

/-- C6, on a concrete event: Ctrl+Backspace is passed to the original entry
point. -/
theorem TranslateAcceleratorW_Hook_pass_through_witness :
    ctrlHeld (scriptHost (openShell [] (onlyKey VK_CONTROL))) (docsWorld "shift") = true ∧
    newCalls (docsWorld "shift")
      (TranslateAcceleratorW_Hook (scriptHost (openShell [] (onlyKey VK_CONTROL))) 1 2
        backspaceDown (docsWorld "shift")).2 =
      [.TranslateAcceleratorW_Original 1 2 backspaceDown] :=
  ⟨by decide,
    (TranslateAcceleratorW_Hook_pass_through (scriptHost (openShell [] (onlyKey VK_CONTROL)))
      1 2 backspaceDown (docsWorld "shift") (Or.inr (by decide))).2.1⟩

/-- C8. Resource balance of a dispatch. For every event, host and world, when
`TranslateAcceleratorW_Hook` returns the mod holds exactly what it held before,
and every reference or memory block obtained during the dispatch (session
reference, active view, folder object, folder identity, its clone, special
folder identities) has been released exactly once. -/
theorem TranslateAcceleratorW_Hook_balanced (H : Host σ) (hWnd : Hwnd) (hAccTable : Haccel)
    (lpMsg : Msg) (w : World σ) :
    Balanced w (TranslateAcceleratorW_Hook H hWnd hAccTable lpMsg w).2 := by
  obtain ⟨new, h⟩ := hook_ext H hWnd hAccTable lpMsg w
  exact h.balanced

/-- C8, on a concrete dispatch: Shift+Backspace at `C:\Users\X\Docs` obtains
five resources and releases each of them. -/
theorem TranslateAcceleratorW_Hook_balanced_witness :
    Balanced (docsWorld "shift")
      (TranslateAcceleratorW_Hook (scriptHost (openShell [] (onlyKey VK_SHIFT))) 1 2
        backspaceDown (docsWorld "shift")).2 ∧
    newRes (docsWorld "shift")
      (TranslateAcceleratorW_Hook (scriptHost (openShell [] (onlyKey VK_SHIFT))) 1 2
        backspaceDown (docsWorld "shift")).2 =
      [.acquire 0, .acquire 1, .acquire 2, .acquire 3, .acquire 4,
        .release 4, .release 3, .release 2, .release 1, .release 0] ∧
    (TranslateAcceleratorW_Hook (scriptHost (openShell [] (onlyKey VK_SHIFT))) 1 2
        backspaceDown (docsWorld "shift")).2.live = [] :=
  ⟨TranslateAcceleratorW_Hook_balanced _ 1 2 backspaceDown (docsWorld "shift"),
    by rfl, by rfl⟩

/-- C9. Suppressor. For every alert type and world, `MessageBeep_Hook` returns
`TRUE` and makes no host call, so it never calls the original alert entry point
and leaves the host state as it was. Two runs that differ only in the logging
setting return the same value: without logging the world is unchanged, with
logging the only change is one more log line. -/
theorem MessageBeep_Hook_suppresses (uType : Nat) (w : World σ) :
    (MessageBeep_Hook uType w).1 = TRUE ∧
    (MessageBeep_Hook uType w).2.calls = w.calls ∧
    (∀ t, HostCall.MessageBeep_Original t ∉ newCalls w (MessageBeep_Hook uType w).2) ∧
    (MessageBeep_Hook uType w).2.host = w.host ∧
    (MessageBeep_Hook uType (withLogging true w)).1 =
      (MessageBeep_Hook uType (withLogging false w)).1 ∧
    (MessageBeep_Hook uType (withLogging false w)).2 = withLogging false w ∧
    (MessageBeep_Hook uType (withLogging true w)).2 =
      { withLogging true w with
        log := w.log ++ ["MessageBeep suppressed (type: " ++ toString uType ++ ")"] } := by
  have hc : (MessageBeep_Hook uType w).2.calls = w.calls := by
    unfold MessageBeep_Hook logIf Wh_Log
    split <;> rfl
  refine ⟨rfl, hc, ?_, ?_, rfl, rfl, rfl⟩
  · intro t
    simp [newCalls, hc]
  · unfold MessageBeep_Hook logIf Wh_Log
    split <;> rfl

/-- C10. For a Backspace key-down with control not held and a resolved session,
the hook runs `SmartNavigateUp` whenever the configured up-modifier is held,
whatever the state of the other modifier; with shift and alt both held it runs
`SmartNavigateUp` under either configuration. While shift or alt is held it
never runs `SmartNavigateBack` as the dispatched operation: it runs
`SmartNavigateUp` or makes no engine call, and the first attempt is never
Back. -/
theorem TranslateAcceleratorW_Hook_up_modifier (H : Host σ) (hWnd : Hwnd) (hAccTable : Haccel)
    (lpMsg : Msg) (w : World σ) (psb : Handle) (hk : lpMsg.message = WM_KEYDOWN)
    (hb : lpMsg.wParam = VK_BACK) (hc : ctrlHeld H w = false)
    (hg : (GetShellBrowserFromHwnd H hWnd w).1 = some psb) :
    (w.settings.upHotkey = "shift" → shiftHeld H w = true →
      RunsUp H psb hWnd hAccTable lpMsg w
        (TranslateAcceleratorW_Hook H hWnd hAccTable lpMsg w)) ∧
    (w.settings.upHotkey = "alt" → altHeld H w = true →
      RunsUp H psb hWnd hAccTable lpMsg w
        (TranslateAcceleratorW_Hook H hWnd hAccTable lpMsg w)) ∧
    ((w.settings.upHotkey = "shift" ∨ w.settings.upHotkey = "alt") →
      shiftHeld H w = true → altHeld H w = true →
      RunsUp H psb hWnd hAccTable lpMsg w
        (TranslateAcceleratorW_Hook H hWnd hAccTable lpMsg w)) ∧
    ((shiftHeld H w = true ∨ altHeld H w = true) →
      (RunsUp H psb hWnd hAccTable lpMsg w
          (TranslateAcceleratorW_Hook H hWnd hAccTable lpMsg w) ∨
        FallsThrough H psb hWnd hAccTable lpMsg w
          (TranslateAcceleratorW_Hook H hWnd hAccTable lpMsg w)) ∧
      (attempts (newCalls w (TranslateAcceleratorW_Hook H hWnd hAccTable lpMsg w).2)).head? ≠
        some .Back) := by
  unfold ctrlHeld at hc
  unfold shiftHeld altHeld RunsUp
  refine ⟨?_, ?_, ?_, ?_⟩
  · intro hs h1
    exact hook_up H hWnd hAccTable lpMsg w psb hk hb hc hg ((upHotkeyHeld_shift hs _ _).2 h1)
  · intro hs h1
    exact hook_up H hWnd hAccTable lpMsg w psb hk hb hc hg ((upHotkeyHeld_alt hs _ _).2 h1)
  · intro hs h1 h2
    rcases hs with hs | hs
    · exact hook_up H hWnd hAccTable lpMsg w psb hk hb hc hg ((upHotkeyHeld_shift hs _ _).2 h1)
    · exact hook_up H hWnd hAccTable lpMsg w psb hk hb hc hg ((upHotkeyHeld_alt hs _ _).2 h2)
  · intro hsa
    by_cases hu : upHotkeyHeld w.settings (keyDown (H.GetKeyState w.host VK_SHIFT))
        (keyDown (H.GetKeyState w.host VK_MENU))
    · refine ⟨Or.inl (hook_up H hWnd hAccTable lpMsg w psb hk hb hc hg hu), ?_⟩
      rw [hook_up_head H hWnd hAccTable lpMsg w psb hk hb hc hg hu]
      simp
    · have hn : ¬ (keyDown (H.GetKeyState w.host VK_SHIFT) = false ∧
          keyDown (H.GetKeyState w.host VK_MENU) = false) := by
        rintro ⟨h1, h2⟩
        rcases hsa with h | h
        · rw [h1] at h; exact Bool.noConfusion h
        · rw [h2] at h; exact Bool.noConfusion h
      have hf := hook_fallsThrough H hWnd hAccTable lpMsg w psb hk hb hc hg hu hn
      refine ⟨Or.inr hf, ?_⟩
      have he := hf.2
      have : attempts (newCalls w (TranslateAcceleratorW_Hook H hWnd hAccTable lpMsg w).2) =
          [] := by
        unfold attempts
        rw [List.filterMap_eq_nil_iff]
        intro c hcm
        have hce : isEngine c = false := by
          rw [List.filter_eq_nil_iff] at he
          simpa using he c hcm
        cases c <;> simp_all [isEngine, attemptOf]
      rw [this]
      simp

/-- C10, on a concrete event: Shift+Alt+Backspace at `C:\Users\X\Docs` runs
`SmartNavigateUp` with the up-modifier `shift` and with the up-modifier `alt`. -/
theorem TranslateAcceleratorW_Hook_up_modifier_witness :
    shiftHeld (scriptHost (openShell [] shiftAndAlt)) (docsWorld "alt") = true ∧
    altHeld (scriptHost (openShell [] shiftAndAlt)) (docsWorld "alt") = true ∧
    RunsUp (scriptHost (openShell [] shiftAndAlt)) 0 1 2 backspaceDown (docsWorld "alt")
      (TranslateAcceleratorW_Hook (scriptHost (openShell [] shiftAndAlt)) 1 2
        backspaceDown (docsWorld "alt")) ∧
    RunsUp (scriptHost (openShell [] shiftAndAlt)) 0 1 2 backspaceDown (docsWorld "shift")
      (TranslateAcceleratorW_Hook (scriptHost (openShell [] shiftAndAlt)) 1 2
        backspaceDown (docsWorld "shift")) :=
  ⟨by decide, by decide,
    (TranslateAcceleratorW_Hook_up_modifier (scriptHost (openShell [] shiftAndAlt)) 1 2
      backspaceDown (docsWorld "alt") 0 (by decide) (by decide) (by decide) (by rfl)).2.2.1
      (Or.inr (by rfl)) (by decide) (by decide),
    (TranslateAcceleratorW_Hook_up_modifier (scriptHost (openShell [] shiftAndAlt)) 1 2
      backspaceDown (docsWorld "shift") 0 (by decide) (by decide) (by decide) (by rfl)).2.2.1
      (Or.inl (by rfl)) (by decide) (by decide)⟩

end SmartNav
